import Mathlib

/-!
# A shallow embedding of the vldt validation core

This file embeds the validation/coercion engine of the vldt CPython
extension (src/) into Lean 4 and proves the specification claims about it.

Conventions of the embedding:

* CPython object trees (`PyObject*` values) become the inductive `PyVal`;
  runtime classes become `PyType`; type annotations (possibly parameterized
  generics) become `TyExpr`.
* The mutable `ErrorCollector` (error_handling.hpp) becomes a functional
  value threaded through the engine; `rapidjson` documents become the
  JSON-like `JVal` tree.  Rendering a collector to a JSON string and
  parsing it back (`to_json` / `add_suberror`) is modelled as the identity
  on trees.  A user exception's `str()` text is abstracted to its
  behavior under rapidjson's object parse (`ExcText`): either it parses
  as a JSON object with some member list -- possibly empty, in which case
  `add_suberror` merges nothing -- or it fails the object parse and
  degrades to the "Invalid suberror JSON" error.
* C functions that mutate through pointers return their new state;
  functions returning `nullptr` with an error recorded return `Option`.
  Python exceptions crossing the C API become the `Exc` type; user
  callables (validators, default factories, deserializers, constructors of
  foreign classes) live in an `Env` of semantic functions.
* The engine's mutual recursion (validate -> nested model construction ->
  validate) is broken with a fuel parameter; `none` at the outermost level
  means fuel exhaustion, an artifact that never occurs in real runs (the C
  recursion is bounded by the schema and value trees).
* Fixed-size `snprintf` path buffers (256 bytes, truncating) are modelled
  as unbounded strings; no claim involves paths anywhere near that bound.
-/

/-- A rapidjson value as stored in the error document: a string or an array. -/
inductive JVal where
  | s (msg : String)
  | arr (xs : List JVal)
deriving Repr

/-- The error document: ordered members of a rapidjson object, keys unique. -/
abbrev ErrTree := List (String × JVal)

mutual

/-- Node count of a `JVal`; used as a strictly increasing measure of the
error document. Every value has positive weight. -/
def JVal.w : JVal → Nat
  | .s _ => 1
  | .arr xs => 1 + JVal.wList xs

/-- Node count of a list of `JVal`. -/
def JVal.wList : List JVal → Nat
  | [] => 0
  | v :: vs => JVal.w v + JVal.wList vs

end

/-- Total node count of an error document. -/
def treeW : ErrTree → Nat
  | [] => 0
  | (_, v) :: rest => v.w + treeW rest

/-- The member keys of an error document, in insertion order. -/
def treeKeys (t : ErrTree) : List String := t.map (fun kv => kv.1)

/-- The `ErrorCollector::add_error` on the raw document: if the key exists,
promote a scalar member to an array and push, else push onto the array;
if absent, append a new scalar member (error_handling.hpp lines 26-49). -/
def treeAddError (t : ErrTree) (field msg : String) : ErrTree :=
  match t with
  | [] => [(field, .s msg)]
  | (k, v) :: rest =>
    if k = field then
      match v with
      | .s old => (k, .arr [.s old, .s msg]) :: rest
      | .arr xs => (k, .arr (xs ++ [.s msg])) :: rest
    else (k, v) :: treeAddError rest field msg

/-- One merged member of `ErrorCollector::add_suberror`: like `treeAddError`
but the pushed value is an arbitrary copied JSON value. -/
def treeAddVal (t : ErrTree) (field : String) (v : JVal) : ErrTree :=
  match t with
  | [] => [(field, v)]
  | (k, old) :: rest =>
    if k = field then
      match old with
      | .s s0 => (k, .arr [.s s0, v]) :: rest
      | .arr xs => (k, .arr (xs ++ [v])) :: rest
    else (k, old) :: treeAddVal rest field v

/-- Merge a parsed sub-error object: each member lands under
`field ++ "." ++ key` with the same array-promotion rule
(error_handling.hpp lines 60-95). -/
def treeMergeSub (t : ErrTree) (field : String) (sub : ErrTree) : ErrTree :=
  match sub with
  | [] => t
  | (k, v) :: rest => treeMergeSub (treeAddVal t (field ++ "." ++ k) v) field rest

/-- The error collector: a lazily allocated rapidjson document
(`doc_` is null until the first error). -/
structure ErrorCollector where
  doc : Option ErrTree
deriving Repr

/-- A freshly constructed collector (`doc_(nullptr)`). -/
def ErrorCollector.empty : ErrorCollector := ⟨none⟩

/-- The `ErrorCollector::add_error`: lazily initialize, then append/promote. -/
def ErrorCollector.add_error (c : ErrorCollector) (field msg : String) :
    ErrorCollector :=
  ⟨some (treeAddError (c.doc.getD []) field msg)⟩

/-- A raised exception's `str()` text, abstracted to how rapidjson's
object parse treats it: `obj members` is a text that parses as a JSON
object with exactly those members (`"{}"` is `obj []`); `raw` is any text
that fails the parse or is not an object. -/
inductive ExcText where
  | obj (members : ErrTree)
  | raw (msg : String)
deriving Repr

/-- A Python exception crossing the C API boundary.  `typeError` is the
engine's own TypeError whose text is a rendered error tree;
`typeErrorMsg` and `attrError` are the engine's plain-message raises
(fixed prose, never valid JSON objects); `other` is a user-raised
exception carrying its text's parse behavior. -/
inductive Exc where
  | typeError (tree : ErrTree)
  | typeErrorMsg (msg : String)
  | attrError (msg : String)
  | other (text : ExcText)
deriving Repr

/-- The `ErrorCollector::add_suberror` applied to `str(exc)`
(error_handling.hpp lines 60-95).  The engine's TypeError renders the
collector tree, which parses back to the same members and is merged one
by one.  A user exception's text that parses as a JSON object is likewise
merged member by member -- merging zero members when the object is empty,
which allocates the document but records nothing.  Any text failing the
object parse degrades to the single error "Invalid suberror JSON". -/
def ErrorCollector.add_suberror (c : ErrorCollector) (field : String)
    (e : Exc) : ErrorCollector :=
  match e with
  | .typeError tree => ⟨some (treeMergeSub (c.doc.getD []) field tree)⟩
  | .other (.obj members) => ⟨some (treeMergeSub (c.doc.getD []) field members)⟩
  | _ => c.add_error field "Invalid suberror JSON"

/-- The `ErrorCollector::has_errors`: document allocated and non-empty. -/
def ErrorCollector.has_errors (c : ErrorCollector) : Bool :=
  match c.doc with
  | none => false
  | some t => !t.isEmpty

/-- Node-count measure of a collector. -/
def ErrorCollector.w (c : ErrorCollector) : Nat := treeW (c.doc.getD [])

/-- Keys currently present in a collector. -/
def ErrorCollector.keys (c : ErrorCollector) : List String :=
  treeKeys (c.doc.getD [])

/-- A runtime Python class relevant to the engine (`PyTypeObject*`). -/
inductive PyType where
  | intT | strT | floatT | boolT | noneT | anyT
  | listT | dictT | tupleT | setT | typeT
  | model (cid : Nat)
  | custom (tid : Nat)
deriving DecidableEq, Repr

/-- A Python object tree (`PyObject*`).  `inst` is a DataModel instance
with its field store; `obj` is an opaque foreign object; `typeRef` is a
class used as a value (e.g. a deserializer-table key). -/
inductive PyVal where
  | none
  | bool (b : Bool)
  | int (n : Int)
  | float (q : Rat)
  | str (s : String)
  | list (xs : List PyVal)
  | tuple (xs : List PyVal)
  | dict (entries : List (PyVal × PyVal))
  | set (xs : List PyVal)
  | inst (cid : Nat) (fields : List (String × PyVal))
  | obj (tid : Nat)
  | typeRef (t : PyType)
deriving Repr

mutual

/-- Structural equality of Python values, modelling `__eq__` as used by
dict-key lookup.  (Python's numeric cross-type equalities such as
`True == 1` are a host-interpreter nicety no claim depends on.) -/
def pyBeq : PyVal → PyVal → Bool
  | .none, .none => true
  | .bool a, .bool b => a == b
  | .int a, .int b => a == b
  | .float a, .float b => a == b
  | .str a, .str b => a == b
  | .list a, .list b => pyBeqList a b
  | .tuple a, .tuple b => pyBeqList a b
  | .dict a, .dict b => pyBeqPairs a b
  | .set a, .set b => pyBeqList a b
  | .inst c a, .inst c' b => c == c' && pyBeqFields a b
  | .obj a, .obj b => a == b
  | .typeRef a, .typeRef b => a == b
  | _, _ => false

/-- Elementwise equality of value lists. -/
def pyBeqList : List PyVal → List PyVal → Bool
  | [], [] => true
  | x :: xs, y :: ys => pyBeq x y && pyBeqList xs ys
  | _, _ => false

/-- Elementwise equality of key-value pair lists. -/
def pyBeqPairs : List (PyVal × PyVal) → List (PyVal × PyVal) → Bool
  | [], [] => true
  | (k, v) :: xs, (k', v') :: ys => pyBeq k k' && pyBeq v v' && pyBeqPairs xs ys
  | _, _ => false

/-- Elementwise equality of field-store entries. -/
def pyBeqFields : List (String × PyVal) → List (String × PyVal) → Bool
  | [], [] => true
  | (k, v) :: xs, (k', v') :: ys => k == k' && pyBeq v v' && pyBeqFields xs ys
  | _, _ => false

end

/-- The `Py_TYPE(value)`. -/
def typeOf : PyVal → PyType
  | .none => .noneT
  | .bool _ => .boolT
  | .int _ => .intT
  | .float _ => .floatT
  | .str _ => .strT
  | .list _ => .listT
  | .tuple _ => .tupleT
  | .dict _ => .dictT
  | .set _ => .setT
  | .inst c _ => .model c
  | .obj t => .custom t
  | .typeRef _ => .typeT

/-- The `PyObject_IsInstance(value, cls)` for a genuine class: the only
subclass relation the embedding carries is `bool <: int` (CPython's
`PyBool_Type` inherits `PyLong_Type`); `typing.Any` admits everything. -/
def isinst : PyVal → PyType → Bool
  | _, .anyT => true
  | .bool _, .boolT => true
  | .bool _, .intT => true
  | .int _, .intT => true
  | .float _, .floatT => true
  | .str _, .strT => true
  | .none, .noneT => true
  | .list _, .listT => true
  | .dict _, .dictT => true
  | .tuple _, .tupleT => true
  | .set _, .setT => true
  | .inst c _, .model c' => c == c'
  | .obj t, .custom t' => t == t'
  | .typeRef _, .typeT => true
  | _, _ => false

/-- The `PyLong_Check` (true for bool, a PyLong subtype). -/
def pyLongCheck : PyVal → Bool
  | .int _ => true
  | .bool _ => true
  | _ => false

/-- The `PyUnicode_Check`. -/
def pyUnicodeCheck : PyVal → Bool
  | .str _ => true
  | _ => false

/-- The `PyFloat_Check`. -/
def pyFloatCheck : PyVal → Bool
  | .float _ => true
  | _ => false

/-- The `PyBool_Check` (exact bool). -/
def pyBoolCheck : PyVal → Bool
  | .bool _ => true
  | _ => false

/-- The `PyDict_Check`. -/
def pyDictCheck : PyVal → Bool
  | .dict _ => true
  | _ => false

/-- The `value == Py_None` (pointer identity with the None singleton). -/
def pyIsNone : PyVal → Bool
  | .none => true
  | _ => false

/-- The `__origin__` of a parameterized annotation: either a runtime class
or one of the typing special forms the engine compares against. -/
inductive TyOrigin where
  | cls (t : PyType)
  | unionO
  | classVarO
  | tupleAlias
  | setAlias
  | dictAlias
deriving DecidableEq, Repr

/-- A type annotation as the schema compiler sees it: a plain class
(no `__origin__`), or a generic with an `__origin__` and optionally a
tuple of `__args__`. -/
inductive TyExpr where
  | cls (t : PyType)
  | generic (origin : TyOrigin) (args : Option (List TyExpr))
deriving Repr

mutual

/-- Identity/equality of annotation objects (used for the `==` pointer
comparisons on interned class objects and for deserializer-table keys). -/
def teBeq : TyExpr → TyExpr → Bool
  | .cls a, .cls b => a == b
  | .generic o a, .generic o' b => o == o' && teArgsBeq a b
  | _, _ => false

/-- Equality of optional argument lists. -/
def teArgsBeq : Option (List TyExpr) → Option (List TyExpr) → Bool
  | Option.none, Option.none => true
  | some xs, some ys => teListBeq xs ys
  | _, _ => false

/-- Elementwise equality of annotation lists. -/
def teListBeq : List TyExpr → List TyExpr → Bool
  | [], [] => true
  | x :: xs, y :: ys => teBeq x y && teListBeq xs ys
  | _, _ => false

end

/-- The `ContainerKind` enum of schema.hpp. -/
inductive ContainerKind where
  | NONE | DICT | LIST | TUPLE | SET | UNION
deriving DecidableEq, Repr

/-- The compiled `TypeSchema` struct of schema.hpp. -/
inductive TypeSchema where
  | mk (expected : TyExpr) (origin : Option TyOrigin) (args : List TypeSchema)
      (is_data_model : Bool) (is_optional : Bool)
      (container_kind : ContainerKind) (inner_model : Option TyExpr)

/-- The `expected_type` slot. -/
def TypeSchema.expected : TypeSchema → TyExpr
  | .mk e _ _ _ _ _ _ => e

/-- The cached, normalized `origin` slot (`none` models `Py_None`). -/
def TypeSchema.origin : TypeSchema → Option TyOrigin
  | .mk _ o _ _ _ _ _ => o

/-- The compiled `args` array. -/
def TypeSchema.args : TypeSchema → List TypeSchema
  | .mk _ _ a _ _ _ _ => a

/-- The `is_data_model` flag. -/
def TypeSchema.is_data_model : TypeSchema → Bool
  | .mk _ _ _ d _ _ _ => d

/-- The `is_optional` flag. -/
def TypeSchema.is_optional : TypeSchema → Bool
  | .mk _ _ _ _ o _ _ => o

/-- The `container_kind` slot. -/
def TypeSchema.container_kind : TypeSchema → ContainerKind
  | .mk _ _ _ _ _ k _ => k

/-- The `inner_model_type` slot. -/
def TypeSchema.inner_model : TypeSchema → Option TyExpr
  | .mk _ _ _ _ _ _ m => m

/-- The `normalize_origin` (schema.cpp lines 120-140): fold the typing aliases
`typing.Tuple` / `typing.Set` / `typing.Dict` onto their runtime container
classes; everything else is left as-is. -/
def normalizeOrigin : TyOrigin → TyOrigin
  | .tupleAlias => .cls .tupleT
  | .setAlias => .cls .setT
  | .dictAlias => .cls .dictT
  | o => o

/-- The `PyType_Check(e) && PyObject_IsSubclass(e, DataModelType)`: only a plain
DataModel subclass qualifies (a parameterized generic is not a class). -/
def isDataModelExpr : TyExpr → Bool
  | .cls (.model _) => true
  | _ => false

/-- Whether a compiled argument schema's `expected_type` is `NoneType`. -/
def tsIsNoneType (c : TypeSchema) : Bool :=
  match c.expected with
  | .cls .noneT => true
  | _ => false

/-- The `inner_model_type` helper for the non-union container branches: set when
the given argument schema's expected type is a DataModel subclass. -/
def innerOf (c : TypeSchema) : Option TyExpr :=
  if isDataModelExpr c.expected then some c.expected else none

/-- The `handle_container_kind` (schema.cpp lines 197-262): classify the
normalized origin with the arity rules; anything unrecognized degrades to
`CK_NONE`. -/
def handle_container_kind (e : TyExpr) (o : TyOrigin) (cargs : List TypeSchema)
    (isDM : Bool) : TypeSchema :=
  if o = .unionO then
    let (opt, inner) := unionScanFwd cargs
    .mk e (some o) cargs isDM opt .UNION inner
  else if o = .cls .dictT ∧ cargs.length = 2 then
    .mk e (some o) cargs isDM false .DICT
      (match cargs with
       | _ :: v :: _ => innerOf v
       | _ => none)
  else if o = .cls .listT ∧ cargs.length = 1 then
    .mk e (some o) cargs isDM false .LIST
      (match cargs with
       | a :: _ => innerOf a
       | _ => none)
  else if o = .cls .tupleT then
    .mk e (some o) cargs isDM false .TUPLE
      (match cargs with
       | [a] => innerOf a
       | _ => none)
  else if o = .cls .setT then
    .mk e (some o) cargs isDM false .SET
      (match cargs with
       | [a] => innerOf a
       | _ => none)
  else
    .mk e (some o) cargs isDM false .NONE none
where
  /-- The union-argument scan loop (schema.cpp lines 202-211): a `NoneType`
  alternative sets `is_optional`; otherwise a DataModel-subclass alternative
  (re)sets `inner_model_type`, the last one winning. -/
  unionScanFwd (cs : List TypeSchema) : Bool × Option TyExpr :=
    (cs.any tsIsNoneType,
     (cs.filter (fun c => !tsIsNoneType c && isDataModelExpr c.expected)
       ).getLast?.map TypeSchema.expected)

mutual

/-- The `compile_type_schema` (schema.cpp lines 270-325).  No origin gives a
plain leaf; origin without an args tuple gives a `CK_NONE` node that keeps
the origin; origin with args recursively compiles the arguments and
classifies the container kind.  (The per-class cache is semantically
transparent and is not modelled; the repr slots feed only host-side error
text.) -/
def compile_type_schema : TyExpr → TypeSchema
  | .cls t => .mk (.cls t) none [] (isDataModelExpr (.cls t)) false .NONE none
  | .generic o none =>
      .mk (.generic o none) (some (normalizeOrigin o)) []
        (isDataModelExpr (.generic o none)) false .NONE none
  | .generic o (some args) =>
      handle_container_kind (.generic o (some args)) (normalizeOrigin o)
        (compileSchemaList args) (isDataModelExpr (.generic o (some args)))

/-- The `compile_args`: compile each `__args__` entry in order. -/
def compileSchemaList : List TyExpr → List TypeSchema
  | [] => []
  | e :: es => compile_type_schema e :: compileSchemaList es

end

/-- The `FieldSchema` struct (schema.hpp): `alias` is null or a list of
alternate string keys; `default_value = none` models the `VLDTUndefined`
sentinel; `default_factory` is `Py_None` or a callable id in the
environment (compile_field_schema only stores callables). -/
structure FieldSchema where
  field_name : String
  alias_list : Option (List String)
  default_value : Option PyVal
  default_factory : Option Nat
  type_schema : TypeSchema

/-- The validator tables of `__vldt_validators__`: field-keyed lists for
field hooks, plain lists for model hooks; entries are callable ids. -/
structure ValidatorSets where
  field_before : List (String × List Nat)
  model_before : List Nat
  field_after : List (String × List Nat)
  model_after : List Nat

/-- The `Deserializers` table: (target annotation, source runtime class)
pairs to callable ids, exact-pair lookup only. -/
structure Deserializers where
  map : List ((TyExpr × PyType) × Nat)

/-- The `get_deserializer` (deserializer.cpp lines 56-70): exact-pair lookup;
`none` models the `Py_None` miss result. -/
def get_deserializer (d : Deserializers) (deserialize_to : TyExpr)
    (deserialize_from : PyType) : Option Nat :=
  (d.map.find? (fun e =>
    teBeq e.1.1 deserialize_to && e.1.2 == deserialize_from)).map (fun e => e.2)

/-- The `SchemaCache` struct (schema.hpp): the compiled model schema.
`class_name` is the class's `tp_name` as used by `safe_type_name`. -/
structure SchemaCache where
  class_name : String
  fields : List FieldSchema
  instance_anns : List (String × TyExpr)
  validators : ValidatorSets
  has_field_before : Bool
  has_field_after : Bool
  has_model_before : Bool
  has_model_after : Bool
  deserializers : Option Deserializers

/-- The semantic environment: model classes by id (the process-wide schema
cache, already compiled), user callables by id (called with a positional
argument list; `Except.error` is a raised exception, carried as its
`str()` text's parse behavior), their introspected `co_argcount`, foreign
single-argument constructors, and foreign class names. -/
structure Env where
  models : Nat → Option SchemaCache
  vcall : Nat → List PyVal → Except ExcText PyVal
  arity : Nat → Nat
  ctor : Nat → PyVal → Except ExcText PyVal
  typeNameOf : Nat → String

/-- The `safe_type_name` applied to a class object. -/
def typeNameTy (env : Env) : PyType → String
  | .intT => "int"
  | .strT => "str"
  | .floatT => "float"
  | .boolT => "bool"
  | .noneT => "NoneType"
  | .anyT => "Any"
  | .listT => "list"
  | .dictT => "dict"
  | .tupleT => "tuple"
  | .setT => "set"
  | .typeT => "type"
  | .model cid => ((env.models cid).map SchemaCache.class_name).getD "<unknown>"
  | .custom tid => env.typeNameOf tid

/-- The `safe_type_name` applied to a non-class value: the name of its type. -/
def typeNameV (env : Env) (v : PyVal) : String := typeNameTy env (typeOf v)

/-- The `safe_type_name` applied to an `expected_type` slot: a class yields its
`__name__`; a parameterized generic is not a class, so the fallback reports
its type's `tp_name`. -/
def typeNameE (env : Env) : TyExpr → String
  | .cls t => typeNameTy env t
  | .generic _ _ => "_GenericAlias"

/-- The `key_str` rendering of `validate_dict`: a unicode key prints
itself, any other key prints its type name. -/
def dictKeyStr (env : Env) (k : PyVal) : String :=
  match k with
  | .str s => s
  | _ => typeNameV env k

/-- The `PyObject_IsInstance(value, e)` as consumed by the C truth tests: on a
genuine class this is the real instance check; isinstance against a
parameterized generic raises, `PyObject_IsInstance` returns -1, and every
call site treats the nonzero result as a match. -/
def isinstE (v : PyVal) (e : TyExpr) : Bool :=
  match e with
  | .cls t => isinst v t
  | .generic _ _ => true

/-- The `PyObject_IsInstance(value, origin)` under the same C truthiness:
`typing.Union` / `typing.ClassVar` make isinstance raise (-1, truthy);
the bare typing aliases check against their runtime classes. -/
def isinstO (v : PyVal) (o : TyOrigin) : Bool :=
  match o with
  | .cls t => isinst v t
  | .unionO => true
  | .classVarO => true
  | .tupleAlias => isinst v .tupleT
  | .setAlias => isinst v .setT
  | .dictAlias => isinst v .dictT

/-- Digits-only string body to a natural number. -/
def digitsToNat : List Char → Option Nat
  | [] => none
  | cs =>
    if cs.all Char.isDigit then
      some (cs.foldl (fun acc c => acc * 10 + (c.toNat - '0'.toNat)) 0)
    else none

/-- The `int(str)` parsing: optional sign then digits.  (CPython also strips
whitespace and underscores; a boundary nicety no claim exercises.) -/
def pyParseInt (s : String) : Option Int :=
  match s.toList with
  | '-' :: rest => (digitsToNat rest).map (fun n => -(n : Int))
  | '+' :: rest => (digitsToNat rest).map (fun n => (n : Int))
  | cs => (digitsToNat cs).map (fun n => (n : Int))

/-- Digit run to a numerator/scale pair for the fractional part. -/
def fracToRat (cs : List Char) : Rat :=
  (cs.foldl (fun acc c => acc * 10 + (c.toNat - '0'.toNat)) 0 : Nat) /
    ((10 : Rat) ^ cs.length)

/-- The `float(str)` parsing: optional sign, digits, optional point and digits;
at least one digit overall.  (Exponents, inf/nan and whitespace are
boundary niceties no claim exercises.) -/
def pyParseFloat (s : String) : Option Rat :=
  let core : List Char → Option Rat := fun cs =>
    match cs.splitOn '.' with
    | [a] => (digitsToNat a).map (fun n => (n : Rat))
    | [a, b] =>
      if (a ++ b).all Char.isDigit && !(a.isEmpty && b.isEmpty) then
        some (((a.foldl (fun acc c => acc * 10 + (c.toNat - '0'.toNat)) 0 : Nat) : Rat)
          + fracToRat b)
      else none
    | _ => none
  match s.toList with
  | '-' :: rest => (core rest).map (fun q => -q)
  | '+' :: rest => core rest
  | cs => core cs

/-- The `str(value)`: a total host-side rendering.  Exact text matters to no
claim (the engine never parses it back); compound values render opaquely. -/
def pyStrOf : PyVal → String
  | .none => "None"
  | .bool b => if b then "True" else "False"
  | .int n => toString n
  | .float q => toString q
  | .str s => s
  | .list _ => "<list>"
  | .tuple _ => "<tuple>"
  | .dict _ => "<dict>"
  | .set _ => "<set>"
  | .inst _ _ => "<instance>"
  | .obj _ => "<object>"
  | .typeRef _ => "<class>"

/-- The `int(x)` constructor on one argument. -/
def pyIntCall (v : PyVal) : Except Exc PyVal :=
  match v with
  | .int n => .ok (.int n)
  | .bool b => .ok (.int (if b then 1 else 0))
  | .float q => .ok (.int (q.num.tdiv q.den))
  | .str s =>
    match pyParseInt s with
    | some n => .ok (.int n)
    | none => .error (.other (.raw "invalid literal for int() with base 10"))
  | _ => .error (.typeErrorMsg "int() argument must be a string or a number")

/-- The `float(x)` constructor on one argument. -/
def pyFloatCall (v : PyVal) : Except Exc PyVal :=
  match v with
  | .float q => .ok (.float q)
  | .int n => .ok (.float (n : Rat))
  | .bool b => .ok (.float (if b then 1 else 0))
  | .str s =>
    match pyParseFloat s with
    | some q => .ok (.float q)
    | none => .error (.other (.raw "could not convert string to float"))
  | _ => .error (.typeErrorMsg "float() argument must be a string or a number")

/-- The `str(x)` constructor on one argument: total. -/
def pyStrCall (v : PyVal) : Except Exc PyVal := .ok (.str (pyStrOf v))

/-- The `bool(x)` constructor on one argument: Python truthiness, total. -/
def pyBoolCall (v : PyVal) : Except Exc PyVal :=
  match v with
  | .none => .ok (.bool false)
  | .bool b => .ok (.bool b)
  | .int n => .ok (.bool (n != 0))
  | .float q => .ok (.bool (q != 0))
  | .str s => .ok (.bool (!s.isEmpty))
  | .list xs => .ok (.bool (!xs.isEmpty))
  | .tuple xs => .ok (.bool (!xs.isEmpty))
  | .dict es => .ok (.bool (!es.isEmpty))
  | .set xs => .ok (.bool (!xs.isEmpty))
  | _ => .ok (.bool true)

/-- Insert into a dict's entry list with Python update semantics: replace
the first equal key in place, else append. -/
def dictSetKV (es : List (PyVal × PyVal)) (k v : PyVal) :
    List (PyVal × PyVal) :=
  match es with
  | [] => [(k, v)]
  | (k0, v0) :: rest =>
    if pyBeq k0 k then (k0, v) :: rest
    else (k0, v0) :: dictSetKV rest k v

/-- Add to a set's element list with dedup (`PySet_Add`). -/
def setAddV (xs : List PyVal) (v : PyVal) : List PyVal :=
  if xs.any (fun x => pyBeq x v) then xs else xs ++ [v]

/-- Iterate a Python value into an element list (`list(x)` and friends);
`none` means the value is not iterable. -/
def pyIterate : PyVal → Option (List PyVal)
  | .list xs => some xs
  | .tuple xs => some xs
  | .set xs => some xs
  | .str s => some (s.toList.map (fun ch => .str (String.mk [ch])))
  | .dict es => some (es.map (fun kv => kv.1))
  | _ => none

/-- The `list(x)` constructor on one argument. -/
def pyListCall (v : PyVal) : Except Exc PyVal :=
  match pyIterate v with
  | some xs => .ok (.list xs)
  | none => .error (.typeErrorMsg "object is not iterable")

/-- The `tuple(x)` constructor on one argument. -/
def pyTupleCall (v : PyVal) : Except Exc PyVal :=
  match pyIterate v with
  | some xs => .ok (.tuple xs)
  | none => .error (.typeErrorMsg "object is not iterable")

/-- The `set(x)` constructor on one argument. -/
def pySetCall (v : PyVal) : Except Exc PyVal :=
  match pyIterate v with
  | some xs => .ok (.set (xs.foldl setAddV []))
  | none => .error (.typeErrorMsg "object is not iterable")

/-- One `dict(x)` item: a two-element list or tuple. -/
def pyPairOf : PyVal → Option (PyVal × PyVal)
  | .list [k, v] => some (k, v)
  | .tuple [k, v] => some (k, v)
  | _ => none

/-- The `dict(x)` constructor on one argument. -/
def pyDictCall (v : PyVal) : Except Exc PyVal :=
  match v with
  | .dict es => .ok (.dict es)
  | .list xs =>
    match xs.mapM pyPairOf with
    | some ps => .ok (.dict (ps.foldl (fun acc kv => dictSetKV acc kv.1 kv.2) []))
    | none => .error (.typeErrorMsg "cannot convert dict update sequence")
  | .tuple xs =>
    match xs.mapM pyPairOf with
    | some ps => .ok (.dict (ps.foldl (fun acc kv => dictSetKV acc kv.1 kv.2) []))
    | none => .error (.typeErrorMsg "cannot convert dict update sequence")
  | _ => .error (.typeErrorMsg "dict() argument error")

/-- Keyword-argument dictionaries: Python dict entries in insertion order. -/
abbrev Kwds := List (PyVal × PyVal)

/-- A DataModel instance's field store (`InstanceData::fields`). -/
abbrev Fields := List (String × PyVal)

/-- Whether a dict key equals a given interned string key (`PyDict_GetItem`
with a string probe: only string keys can compare equal). -/
def pyStrKeyEq (k : PyVal) (s : String) : Bool :=
  match k with
  | .str s0 => s0 == s
  | _ => false

/-- The `PyDict_GetItem(kw, name)` for a string name. -/
def kwLookup (kw : Kwds) (name : String) : Option PyVal :=
  (kw.find? (fun kv => pyStrKeyEq kv.1 name)).map (fun kv => kv.2)

/-- Lookup in a string-keyed association list (field stores, annotation
dicts). -/
def strLookup {α : Type} (l : List (String × α)) (name : String) : Option α :=
  (l.find? (fun kv => kv.1 == name)).map (fun kv => kv.2)

/-- The `fields[name] = v` on the instance store (`std::unordered_map`
assignment: replace if present, else insert). -/
def fieldsSet (fields : Fields) (name : String) (v : PyVal) : Fields :=
  match fields with
  | [] => [(name, v)]
  | (k, v0) :: rest =>
    if k = name then (k, v) :: rest
    else (k, v0) :: fieldsSet rest name v

/-- The `PyDict_SetItem(kw, key, v)` by Python key equality. -/
def kwSet (kw : Kwds) (key : String) (v : PyVal) : Kwds :=
  dictSetKV kw (.str key) v

/-- The `PyDict_Update(target, src)`: copy each source entry over the target. -/
def dictUpdate (target src : Kwds) : Kwds :=
  src.foldl (fun acc kv => dictSetKV acc kv.1 kv.2) target

/-- The `validate_int` (validation_primitives.cpp lines 63-81): already a
PyLong (bool included) passes through; else call `int(value)` and require
a PyLong result; on failure record the error. -/
def validate_int (env : Env) (value : PyVal) (collector : ErrorCollector)
    (error_path : String) : Option PyVal × ErrorCollector :=
  if pyLongCheck value then (some value, collector)
  else
    match pyIntCall value with
    | .ok conv =>
      if pyLongCheck conv then (some conv, collector)
      else (none, collector.add_error error_path
        ("Expected type int, got " ++ typeNameV env value))
    | .error _ =>
      (none, collector.add_error error_path
        ("Expected type int, got " ++ typeNameV env value))

/-- The `validate_str` (validation_primitives.cpp lines 95-113). -/
def validate_str (env : Env) (value : PyVal) (collector : ErrorCollector)
    (error_path : String) : Option PyVal × ErrorCollector :=
  if pyUnicodeCheck value then (some value, collector)
  else
    match pyStrCall value with
    | .ok conv =>
      if pyUnicodeCheck conv then (some conv, collector)
      else (none, collector.add_error error_path
        ("Expected type str, got " ++ typeNameV env value))
    | .error _ =>
      (none, collector.add_error error_path
        ("Expected type str, got " ++ typeNameV env value))

/-- The `validate_float` (validation_primitives.cpp lines 127-146). -/
def validate_float (env : Env) (value : PyVal) (collector : ErrorCollector)
    (error_path : String) : Option PyVal × ErrorCollector :=
  if pyFloatCheck value then (some value, collector)
  else
    match pyFloatCall value with
    | .ok conv =>
      if pyFloatCheck conv then (some conv, collector)
      else (none, collector.add_error error_path
        ("Expected type float, got " ++ typeNameV env value))
    | .error _ =>
      (none, collector.add_error error_path
        ("Expected type float, got " ++ typeNameV env value))

/-- The `validate_bool` (validation_primitives.cpp lines 160-178). -/
def validate_bool (env : Env) (value : PyVal) (collector : ErrorCollector)
    (error_path : String) : Option PyVal × ErrorCollector :=
  if pyBoolCheck value then (some value, collector)
  else
    match pyBoolCall value with
    | .ok conv =>
      if pyBoolCheck conv then (some conv, collector)
      else (none, collector.add_error error_path
        ("Expected type bool, got " ++ typeNameV env value))
    | .error _ =>
      (none, collector.add_error error_path
        ("Expected type bool, got " ++ typeNameV env value))

/-- Input-value resolution of `DataModel_init` (data_model.cpp lines
172-190): with a kwargs dict present, probe the alias list in declared
order and take the first hit; only if no alias is present fall back to the
canonical field name. -/
def resolve_field_input (fs : FieldSchema) (kwds : Option Kwds) :
    Option PyVal :=
  match kwds with
  | none => none
  | some kw =>
    match fs.alias_list with
    | some al =>
      match al.findSome? (fun a => kwLookup kw a) with
      | some v => some v
      | none => kwLookup kw fs.field_name
    | none => kwLookup kw fs.field_name

/-- The `is_class_var` (data_model.cpp lines 62-71): the annotation's
`__origin__` is `typing.ClassVar`. -/
def is_class_var (e : TyExpr) : Bool :=
  match e with
  | .generic .classVarO _ => true
  | _ => false

/-- Run one field-validator chain (the inner loops of
run_field_before_validators / run_field_after_validators): each callable
gets `(cls, current)` and replaces the current value; a raise aborts. -/
def run_validator_chain (env : Env) (cid : Nat) :
    List Nat → PyVal → Except ExcText PyVal
  | [], current => .ok current
  | id :: rest, current =>
    match env.vcall id [.typeRef (.model cid), current] with
    | .error e => .error e
    | .ok next => run_validator_chain env cid rest next

/-- The `run_model_validators` with `call_with_cls` (validation_validators.cpp
lines 41-71), as used for model-before hooks: call each validator with
`(cls, kwds-dict)`; a dict result is merged into the kwargs via
`PyDict_Update`.  A null kwargs pointer makes the C call the validator
with the class alone and crash in `PyDict_Update` on a dict result; the
embedding calls with the class alone and raises there. -/
def run_model_vals (env : Env) (cid : Nat) :
    List Nat → Option Kwds → Except ExcText (Option Kwds)
  | [], kw => .ok kw
  | id :: rest, kw =>
    let args := match kw with
      | some es => [.typeRef (.model cid), .dict es]
      | none => [PyVal.typeRef (.model cid)]
    match env.vcall id args with
    | .error m => .error m
    | .ok r =>
      match r, kw with
      | .dict res, some es => run_model_vals env cid rest (some (dictUpdate es res))
      | .dict _, none =>
        .error (.raw "SystemError: bad argument to internal function")
      | _, _ => run_model_vals env cid rest kw

/-- The `run_model_before_validators` (validation_validators.cpp lines
145-159). -/
def run_model_before_validators (env : Env) (schema : SchemaCache) (cid : Nat)
    (kwds : Option Kwds) : Except ExcText (Option Kwds) :=
  if !schema.has_model_before then .ok kwds
  else
    match schema.validators.model_before with
    | [] => .ok kwds
    | ids => run_model_vals env cid ids kwds

/-- The per-field loop of `run_field_before_validators`
(validation_validators.cpp lines 84-132): for each registered field key
present in the kwargs, fold its validator chain over the current entry and
store the result back.  (With a null kwargs pointer the C would pass null
to `PyDict_Contains`; hooks are only exercised on dict inputs, modelled as
a skip.) -/
def run_field_before_list (env : Env) (cid : Nat) :
    List (String × List Nat) → Kwds → Except ExcText Kwds
  | [], kw => .ok kw
  | (key, vlist) :: rest, kw =>
    match kwLookup kw key with
    | some current =>
      match run_validator_chain env cid vlist current with
      | .error m => .error m
      | .ok final => run_field_before_list env cid rest (kwSet kw key final)
    | none => run_field_before_list env cid rest kw

/-- The `run_field_before_validators` entry point. -/
def run_field_before_validators (env : Env) (schema : SchemaCache) (cid : Nat)
    (kwds : Option Kwds) : Except ExcText (Option Kwds) :=
  if !schema.has_field_before then .ok kwds
  else
    match kwds with
    | none => .ok none
    | some kw =>
      (run_field_before_list env cid schema.validators.field_before kw).map
        (fun kw2 => some kw2)

/-- The validator loop of `run_model_after_validators`
(validation_validators.cpp lines 230-274): each model-after validator is
introspected for `co_argcount`; arity 1 gets the instance alone, anything
else gets `(cls, instance)`; results are discarded, raises abort. -/
def run_model_after_list (env : Env) (cid : Nat) (fields : Fields) :
    List Nat → Except ExcText Unit
  | [] => .ok ()
  | id :: rest =>
    let args := if env.arity id = 1 then [PyVal.inst cid fields]
      else [.typeRef (.model cid), .inst cid fields]
    match env.vcall id args with
    | .error e => .error e
    | .ok _ => run_model_after_list env cid fields rest

/-- The `run_model_after_validators` entry point. -/
def run_model_after_validators (env : Env) (schema : SchemaCache) (cid : Nat)
    (fields : Fields) : Except ExcText Unit :=
  if !schema.has_model_after then .ok ()
  else run_model_after_list env cid fields schema.validators.model_after

mutual

/-- The `validate_and_convert` (validation.cpp lines 199-240): the dispatch.
None passes through only when the node is optional; `typing.Any` accepts
anything; a DataModel node fed a dict goes through nested construction;
then the container-kind switch; then plain-vs-union on the origin; and
finally the generic constructor fallback. -/
def validate_and_convert (env : Env) : Nat → PyVal → TypeSchema →
    ErrorCollector → String → Option Deserializers →
    Option (Option PyVal × ErrorCollector)
  | 0, _, _, _, _, _ => none
  | fuel + 1, value, ts, collector, error_path, deserializers =>
    if pyIsNone value && ts.is_optional then some (some .none, collector)
    else if teBeq ts.expected (.cls .anyT) then some (some value, collector)
    else if ts.is_data_model && pyDictCheck value then
      validate_data_model env fuel value ts collector error_path deserializers
    else
      match ts.container_kind with
      | .LIST => validate_list env fuel value ts collector error_path deserializers
      | .DICT => validate_dict env fuel value ts collector error_path deserializers
      | .TUPLE => validate_tuple env fuel value ts collector error_path deserializers
      | .SET => validate_set env fuel value ts collector error_path deserializers
      | _ =>
        if ts.origin.isNone then
          validate_plain env fuel value ts collector error_path deserializers
        else if ts.container_kind = .UNION then
          validate_union env fuel value ts collector error_path deserializers
        else
          convert_using_constructor env fuel value ts collector error_path
            deserializers
termination_by structural fuel _ _ _ _ _ => fuel

/-- The `validate_list` (validation_containers.cpp lines 61-99): require a
list, then convert each element against `args[0]` at `path.index`; the
first failing element aborts the whole list. -/
def validate_list (env : Env) : Nat → PyVal → TypeSchema → ErrorCollector →
    String → Option Deserializers → Option (Option PyVal × ErrorCollector)
  | 0, _, _, _, _, _ => none
  | fuel + 1, value, ts, collector, error_path, deserializers =>
    match value with
    | .list xs =>
      match ts.args with
      | ets :: _ =>
        match validate_list_items env fuel ets xs collector error_path 0
            deserializers with
        | none => none
        | some (none, c2) => some (none, c2)
        | some (some ys, c2) => some (some (.list ys), c2)
      | [] => some (none, collector)
    | _ =>
      some (none, collector.add_error error_path
        ("Expected a list, got " ++ typeNameV env value))
termination_by structural fuel _ _ _ _ _ => fuel

/-- Element loop of `validate_list`. -/
def validate_list_items (env : Env) : Nat → TypeSchema → List PyVal →
    ErrorCollector → String → Nat → Option Deserializers →
    Option (Option (List PyVal) × ErrorCollector)
  | 0, _, _, _, _, _, _ => none
  | _ + 1, _, [], collector, _, _, _ => some (some [], collector)
  | fuel + 1, ets, x :: xs, collector, error_path, i, deserializers =>
    match validate_and_convert env fuel x ets collector
        (error_path ++ "." ++ toString i) deserializers with
    | none => none
    | some (none, c2) => some (none, c2)
    | some (some y, c2) =>
      match validate_list_items env fuel ets xs c2 error_path (i + 1)
          deserializers with
      | none => none
      | some (none, c3) => some (none, c3)
      | some (some ys, c3) => some (some (y :: ys), c3)
termination_by structural fuel _ _ _ _ _ _ => fuel

/-- The `validate_dict` (validation_containers.cpp lines 115-172): require a
dict; convert each key and value against `args[0]` / `args[1]`, both at
`path.key`; the first failure aborts the whole dict. -/
def validate_dict (env : Env) : Nat → PyVal → TypeSchema → ErrorCollector →
    String → Option Deserializers → Option (Option PyVal × ErrorCollector)
  | 0, _, _, _, _, _ => none
  | fuel + 1, value, ts, collector, error_path, deserializers =>
    match value with
    | .dict entries =>
      match ts.args with
      | kts :: vts :: _ =>
        match validate_dict_items env fuel kts vts entries collector
            error_path deserializers [] with
        | none => none
        | some (none, c2) => some (none, c2)
        | some (some es, c2) => some (some (.dict es), c2)
      | _ => some (none, collector)
    | _ =>
      some (none, collector.add_error error_path
        ("Expected a dict, got " ++ typeNameV env value))
termination_by structural fuel _ _ _ _ _ => fuel

/-- Entry loop of `validate_dict`: the sub-path renders a string key
directly and any other key by its type name. -/
def validate_dict_items (env : Env) : Nat → TypeSchema → TypeSchema → Kwds →
    ErrorCollector → String → Option Deserializers → Kwds →
    Option (Option Kwds × ErrorCollector)
  | 0, _, _, _, _, _, _, _ => none
  | _ + 1, _, _, [], collector, _, _, acc => some (some acc, collector)
  | fuel + 1, kts, vts, (k, v) :: rest, collector, error_path, deserializers,
      acc =>
    let new_path := error_path ++ "." ++ dictKeyStr env k
    match validate_and_convert env fuel k kts collector new_path
        deserializers with
    | none => none
    | some (none, c2) => some (none, c2)
    | some (some ck, c2) =>
      match validate_and_convert env fuel v vts c2 new_path deserializers with
      | none => none
      | some (none, c3) => some (none, c3)
      | some (some cv, c3) =>
        validate_dict_items env fuel kts vts rest c3 error_path deserializers
          (dictSetKV acc ck cv)
termination_by structural fuel _ _ _ _ _ _ _ => fuel

/-- The `validate_tuple` (validation_containers.cpp lines 187-224): require a
tuple of exactly `num_args` elements, then convert position `i` against
`args[i]` at `path.i`; the first failure aborts. -/
def validate_tuple (env : Env) : Nat → PyVal → TypeSchema → ErrorCollector →
    String → Option Deserializers → Option (Option PyVal × ErrorCollector)
  | 0, _, _, _, _, _ => none
  | fuel + 1, value, ts, collector, error_path, deserializers =>
    match value with
    | .tuple xs =>
      if ts.args.length ≠ xs.length then
        some (none, collector.add_error error_path
          ("Expected tuple of length " ++ toString ts.args.length ++
            ", got " ++ toString xs.length))
      else
        match validate_tuple_items env fuel (ts.args.zip xs) collector
            error_path 0 deserializers with
        | none => none
        | some (none, c2) => some (none, c2)
        | some (some ys, c2) => some (some (.tuple ys), c2)
    | _ =>
      some (none, collector.add_error error_path
        ("Expected a tuple, got " ++ typeNameV env value))
termination_by structural fuel _ _ _ _ _ => fuel

/-- Position loop of `validate_tuple`. -/
def validate_tuple_items (env : Env) : Nat → List (TypeSchema × PyVal) →
    ErrorCollector → String → Nat → Option Deserializers →
    Option (Option (List PyVal) × ErrorCollector)
  | 0, _, _, _, _, _ => none
  | _ + 1, [], collector, _, _, _ => some (some [], collector)
  | fuel + 1, (its, x) :: rest, collector, error_path, i, deserializers =>
    match validate_and_convert env fuel x its collector
        (error_path ++ "." ++ toString i) deserializers with
    | none => none
    | some (none, c2) => some (none, c2)
    | some (some y, c2) =>
      match validate_tuple_items env fuel rest c2 error_path (i + 1)
          deserializers with
      | none => none
      | some (none, c3) => some (none, c3)
      | some (some ys, c3) => some (some (y :: ys), c3)
termination_by structural fuel _ _ _ _ _ => fuel

/-- The `validate_set` (validation_containers.cpp lines 239-281): require a
set; convert each element against `args[0]` at `path.index` in iteration
order; the first failure aborts. -/
def validate_set (env : Env) : Nat → PyVal → TypeSchema → ErrorCollector →
    String → Option Deserializers → Option (Option PyVal × ErrorCollector)
  | 0, _, _, _, _, _ => none
  | fuel + 1, value, ts, collector, error_path, deserializers =>
    match value with
    | .set xs =>
      match ts.args with
      | ets :: _ =>
        match validate_set_items env fuel ets xs collector error_path 0
            deserializers [] with
        | none => none
        | some (none, c2) => some (none, c2)
        | some (some ys, c2) => some (some (.set ys), c2)
      | [] => some (none, collector)
    | _ =>
      some (none, collector.add_error error_path
        ("Expected a set, got " ++ typeNameV env value))
termination_by structural fuel _ _ _ _ _ => fuel

/-- Element loop of `validate_set` (`PySet_Add` dedups into the result). -/
def validate_set_items (env : Env) : Nat → TypeSchema → List PyVal →
    ErrorCollector → String → Nat → Option Deserializers → List PyVal →
    Option (Option (List PyVal) × ErrorCollector)
  | 0, _, _, _, _, _, _, _ => none
  | _ + 1, _, [], collector, _, _, _, acc => some (some acc, collector)
  | fuel + 1, ets, x :: xs, collector, error_path, idx, deserializers, acc =>
    match validate_and_convert env fuel x ets collector
        (error_path ++ "." ++ toString idx) deserializers with
    | none => none
    | some (none, c2) => some (none, c2)
    | some (some y, c2) =>
      validate_set_items env fuel ets xs c2 error_path (idx + 1) deserializers
        (setAddV acc y)
termination_by structural fuel _ _ _ _ _ _ _ => fuel

/-- The `validate_union` (validation_containers.cpp lines 297-326): first pass
checks, in declaration order, whether the value is already an instance of
the candidate's origin (containers) or expected type, returning the value
unchanged on a hit; only then a second pass retries each candidate with
full conversion into a throwaway collector; if both passes fail, one
union error is recorded. -/
def validate_union (env : Env) : Nat → PyVal → TypeSchema → ErrorCollector →
    String → Option Deserializers → Option (Option PyVal × ErrorCollector)
  | 0, _, _, _, _, _ => none
  | fuel + 1, value, ts, collector, error_path, deserializers =>
    if ts.args.any (fun candidate =>
        match candidate.origin with
        | some o => isinstO value o
        | none => isinstE value candidate.expected) then
      some (some value, collector)
    else
      match validate_union_second env fuel ts.args value .empty error_path
          deserializers with
      | none => none
      | some (some conv) => some (some conv, collector)
      | some none =>
        some (none, collector.add_error error_path
          ("Value did not match any candidate in Union: got " ++
            typeNameV env value))
termination_by structural fuel _ _ _ _ _ => fuel

/-- Second pass of `validate_union`: one shared scratch collector threads
through the candidates and is dropped whatever happens. -/
def validate_union_second (env : Env) : Nat → List TypeSchema → PyVal →
    ErrorCollector → String → Option Deserializers → Option (Option PyVal)
  | 0, _, _, _, _, _ => none
  | _ + 1, [], _, _, _, _ => some none
  | fuel + 1, candidate :: rest, value, temp, error_path, deserializers =>
    match validate_and_convert env fuel value candidate temp error_path
        deserializers with
    | none => none
    | some (some conv, _) => some (some conv)
    | some (none, temp2) =>
      validate_union_second env fuel rest value temp2 error_path deserializers
termination_by structural fuel _ _ _ _ _ => fuel

/-- The `validate_plain` (validation.cpp lines 100-151): an instance of the
expected type passes through; else a registered deserializer may convert
(accepted only when the result is an instance, silently dropped
otherwise); else the kind-specific or constructor fallback. -/
def validate_plain (env : Env) : Nat → PyVal → TypeSchema → ErrorCollector →
    String → Option Deserializers → Option (Option PyVal × ErrorCollector)
  | 0, _, _, _, _, _ => none
  | fuel + 1, value, ts, collector, error_path, deserializers =>
    let fallback : Option (Option PyVal × ErrorCollector) :=
      if teBeq ts.expected (.cls .intT) then
        some (validate_int env value collector error_path)
      else if teBeq ts.expected (.cls .strT) then
        some (validate_str env value collector error_path)
      else if teBeq ts.expected (.cls .floatT) then
        some (validate_float env value collector error_path)
      else if teBeq ts.expected (.cls .boolT) then
        some (validate_bool env value collector error_path)
      else
        match call_expr_pos env fuel ts.expected value with
        | none => none
        | some (.ok conv) =>
          if isinstE conv ts.expected then some (some conv, collector)
          else
            some (none, collector.add_error error_path
              ("Expected type " ++ typeNameE env ts.expected ++ ", got " ++
                typeNameV env value))
        | some (.error _) =>
          some (none, collector.add_error error_path
            ("Expected type " ++ typeNameE env ts.expected ++ ", got " ++
              typeNameV env value))
    if isinstE value ts.expected then some (some value, collector)
    else
      match deserializers with
      | some d =>
        match get_deserializer d ts.expected (typeOf value) with
        | some fid =>
          match env.vcall fid [value] with
          | .ok deserialized =>
            if isinstE deserialized ts.expected then
              some (some deserialized, collector)
            else fallback
          | .error _ => fallback
        | none => fallback
      | none => fallback
termination_by structural fuel _ _ _ _ _ => fuel

/-- The `convert_using_constructor` (validation.cpp lines 167-184): the same
constructor-based coercion used for unrecognized generic shapes. -/
def convert_using_constructor (env : Env) : Nat → PyVal → TypeSchema →
    ErrorCollector → String → Option Deserializers →
    Option (Option PyVal × ErrorCollector)
  | 0, _, _, _, _, _ => none
  | fuel + 1, value, ts, collector, error_path, _ =>
    match call_expr_pos env fuel ts.expected value with
    | none => none
    | some (.ok conv) =>
      if isinstE conv ts.expected then some (some conv, collector)
      else
        some (none, collector.add_error error_path
          ("Expected type " ++ typeNameE env ts.expected ++ ", got " ++
            typeNameV env value))
    | some (.error _) =>
      some (none, collector.add_error error_path
        ("Expected type " ++ typeNameE env ts.expected ++ ", got " ++
          typeNameV env value))
termination_by structural fuel _ _ _ _ _ => fuel

/-- The `validate_data_model` (validation.cpp lines 64-84): call the model
class with the dict as keyword arguments; on any raise, render the
exception and attach it as a sub-error at the current path. -/
def validate_data_model (env : Env) : Nat → PyVal → TypeSchema →
    ErrorCollector → String → Option Deserializers →
    Option (Option PyVal × ErrorCollector)
  | 0, _, _, _, _, _ => none
  | fuel + 1, value, ts, collector, error_path, _ =>
    match ts.expected with
    | .cls (.model cid) =>
      match value with
      | .dict entries =>
        match DataModel_init env fuel cid (some entries) with
        | none => none
        | some (.ok fields) => some (some (.inst cid fields), collector)
        | some (.error e) => some (none, collector.add_suberror error_path e)
      | _ =>
        some (none, collector.add_suberror error_path
          (.other (.raw "SystemError: bad keyword arguments")))
    | _ =>
      some (none, collector.add_suberror error_path
        (.other (.raw "TypeError: not a DataModel class")))
termination_by structural fuel _ _ _ _ _ => fuel

/-- Calling a runtime class on one positional argument
(`PyObject_CallFunctionObjArgs(cls, value, nullptr)`). -/
def call_class_pos (env : Env) : Nat → PyType → PyVal →
    Option (Except Exc PyVal)
  | 0, _, _ => none
  | fuel + 1, t, v =>
    match t with
    | .intT => some (pyIntCall v)
    | .strT => some (pyStrCall v)
    | .floatT => some (pyFloatCall v)
    | .boolT => some (pyBoolCall v)
    | .noneT => some (.error (.typeErrorMsg "NoneType takes no arguments"))
    | .anyT => some (.error (.typeErrorMsg "Any cannot be instantiated"))
    | .listT => some (pyListCall v)
    | .dictT => some (pyDictCall v)
    | .tupleT => some (pyTupleCall v)
    | .setT => some (pySetCall v)
    | .typeT => some (.ok (.typeRef (typeOf v)))
    | .model cid =>
      match DataModel_init env fuel cid none with
      | none => none
      | some (.ok fields) => some (.ok (.inst cid fields))
      | some (.error e) => some (.error e)
    | .custom tid => some ((env.ctor tid v).mapError Exc.other)
termination_by structural fuel _ _ => fuel

/-- Calling an `expected_type` slot on one positional argument: a class
calls the class; a parameterized generic of a class delegates to its
origin class (CPython generic-alias `__call__`); the typing special forms
are not callable. -/
def call_expr_pos (env : Env) : Nat → TyExpr → PyVal →
    Option (Except Exc PyVal)
  | 0, _, _ => none
  | fuel + 1, e, v =>
    match e with
    | .cls t => call_class_pos env fuel t v
    | .generic (.cls t) _ => call_class_pos env fuel t v
    | .generic .tupleAlias _ => call_class_pos env fuel .tupleT v
    | .generic .setAlias _ => call_class_pos env fuel .setT v
    | .generic .dictAlias _ => call_class_pos env fuel .dictT v
    | .generic .unionO _ =>
      some (.error (.typeErrorMsg "Union cannot be instantiated"))
    | .generic .classVarO _ =>
      some (.error (.typeErrorMsg "ClassVar cannot be instantiated"))
termination_by structural fuel _ _ => fuel

/-- The `DataModel_init` (data_model.cpp lines 141-248): fetch the compiled
schema, run the before hooks, assemble every field into the instance
store (collecting errors, never aborting early), raise the rendered
error tree if any field failed, then run the after hooks. -/
def DataModel_init (env : Env) : Nat → Nat → Option Kwds →
    Option (Except Exc Fields)
  | 0, _, _ => none
  | fuel + 1, cid, kwds =>
    match env.models cid with
    | none => some (.error (.typeErrorMsg "Could not compile model schema"))
    | some schema =>
      match run_model_before_validators env schema cid kwds with
      | .error m => some (.error (.other m))
      | .ok kwds1 =>
        match run_field_before_validators env schema cid kwds1 with
        | .error m => some (.error (.other m))
        | .ok kwds2 =>
          match init_fields env fuel schema.fields kwds2 schema.deserializers
              .empty [] with
          | none => none
          | some (collector, fields) =>
            if collector.has_errors then
              some (.error (.typeError (collector.doc.getD [])))
            else
              match run_field_after_validators env fuel schema cid fields with
              | none => none
              | some (.error e) => some (.error e)
              | some (.ok fields2) =>
                match run_model_after_validators env schema cid fields2 with
                | .error m => some (.error (.other m))
                | .ok _ => some (.ok fields2)
termination_by structural fuel _ _ => fuel

/-- The per-field loop of `DataModel_init`: every declared field is
processed in order regardless of earlier outcomes. -/
def init_fields (env : Env) : Nat → List FieldSchema → Option Kwds →
    Option Deserializers → ErrorCollector → Fields →
    Option (ErrorCollector × Fields)
  | 0, _, _, _, _, _ => none
  | _ + 1, [], _, _, collector, fields => some (collector, fields)
  | fuel + 1, fs :: rest, kwds, deserializers, collector, fields =>
    match init_field_step env fuel fs kwds deserializers collector fields with
    | none => none
    | some (c2, fields2) =>
      init_fields env fuel rest kwds deserializers c2 fields2
termination_by structural fuel _ _ _ _ _ => fuel

/-- One iteration of the field loop (data_model.cpp lines 167-233):
resolve the input value (aliases first, canonical name, then the
default-factory / default-value / optional-null / missing-error ladder)
and validate it into the store. -/
def init_field_step (env : Env) : Nat → FieldSchema → Option Kwds →
    Option Deserializers → ErrorCollector → Fields →
    Option (ErrorCollector × Fields)
  | 0, _, _, _, _, _ => none
  | fuel + 1, fs, kwds, deserializers, collector, fields =>
    match resolve_field_input fs kwds with
    | some value =>
      init_validate_store env fuel fs deserializers collector fields value
    | none =>
      match fs.default_factory with
      | some fid =>
        match env.vcall fid [] with
        | .ok value =>
          init_validate_store env fuel fs deserializers collector fields value
        | .error _ =>
          some (collector.add_error fs.field_name
            "Missing required field and default factory call failed", fields)
      | none =>
        match fs.default_value with
        | some dv =>
          init_validate_store env fuel fs deserializers collector fields dv
        | none =>
          if fs.type_schema.is_optional then
            init_validate_store env fuel fs deserializers collector fields
              .none
          else
            some (collector.add_error fs.field_name "Missing required field",
              fields)
termination_by structural fuel _ _ _ _ _ => fuel

/-- Validate a resolved field value and write it into the instance store;
on failure the original unconverted value is stored as the placeholder
and the loop continues. -/
def init_validate_store (env : Env) : Nat → FieldSchema →
    Option Deserializers → ErrorCollector → Fields → PyVal →
    Option (ErrorCollector × Fields)
  | 0, _, _, _, _, _ => none
  | fuel + 1, fs, deserializers, collector, fields, value =>
    match validate_and_convert env fuel value fs.type_schema collector
        fs.field_name deserializers with
    | none => none
    | some (some new_value, c2) =>
      some (c2, fieldsSet fields fs.field_name new_value)
    | some (none, c2) =>
      some (c2, fieldsSet fields fs.field_name value)
termination_by structural fuel _ _ _ _ _ => fuel

/-- The `run_field_after_validators` (validation_validators.cpp lines
172-218): for each registered field present on the instance, fold its
validator chain over the current value and write the result back through
`PyObject_SetAttr`, i.e. through the validating `DataModel_setattro`. -/
def run_field_after_validators (env : Env) : Nat → SchemaCache → Nat →
    Fields → Option (Except Exc Fields)
  | 0, _, _, _ => none
  | fuel + 1, schema, cid, fields =>
    if !schema.has_field_after then some (.ok fields)
    else run_field_after_list env fuel schema cid
      schema.validators.field_after fields
termination_by structural fuel _ _ _ => fuel

/-- The entry loop of `run_field_after_validators`. -/
def run_field_after_list (env : Env) : Nat → SchemaCache → Nat →
    List (String × List Nat) → Fields → Option (Except Exc Fields)
  | 0, _, _, _, _ => none
  | _ + 1, _, _, [], fields => some (.ok fields)
  | fuel + 1, schema, cid, (key, vlist) :: rest, fields =>
    match strLookup fields key with
    | some current =>
      match run_validator_chain env cid vlist current with
      | .error m => some (.error (.other m))
      | .ok final =>
        match DataModel_setattro env fuel schema fields key final with
        | none => none
        | some (.error e) => some (.error e)
        | some (.ok fields2) =>
          run_field_after_list env fuel schema cid rest fields2
    | none => run_field_after_list env fuel schema cid rest fields
termination_by structural fuel _ _ _ _ => fuel

/-- The `DataModel_setattro` (data_model.cpp lines 258-333): an annotated,
non-ClassVar name is validated against its compiled annotation with a
fresh collector; failure raises a TypeError carrying the rendered tree
without touching the store; success stores the converted value; a
ClassVar name raises AttributeError; an unannotated name is stored
directly with no validation. -/
def DataModel_setattro (env : Env) : Nat → SchemaCache → Fields → String →
    PyVal → Option (Except Exc Fields)
  | 0, _, _, _, _ => none
  | fuel + 1, schema, fields, name, value =>
    match strLookup schema.instance_anns name with
    | some expected_type =>
      if is_class_var expected_type then
        some (.error (.attrError "Cannot set ClassVar attribute"))
      else
        let ts := compile_type_schema expected_type
        match validate_and_convert env fuel value ts .empty name
            schema.deserializers with
        | none => none
        | some (some converted, _) => some (.ok (fieldsSet fields name converted))
        | some (none, c2) =>
          if c2.has_errors then some (.error (.typeError (c2.doc.getD [])))
          else
            some (.error (.typeErrorMsg
              ("Invalid value for attribute " ++ name)))
    | none => some (.ok (fieldsSet fields name value))
termination_by structural fuel _ _ _ _ => fuel

end

/-- Member lookup in an error document (`HasMember` / `operator[]`). -/
def treeGet : ErrTree → String → Option JVal
  | [], _ => none
  | (k, v) :: rest, q => if k = q then some v else treeGet rest q

mutual

/-- All message strings contained in a stored error value, in order. -/
def JVal.msgs : JVal → List String
  | .s m => [m]
  | .arr xs => JVal.msgsList xs

/-- All message strings of a list of stored values. -/
def JVal.msgsList : List JVal → List String
  | [] => []
  | v :: vs => JVal.msgs v ++ JVal.msgsList vs

end

/-- The messages recorded at one path of a collector. -/
def msgsAt (c : ErrorCollector) (q : String) : List String :=
  match treeGet (c.doc.getD []) q with
  | none => []
  | some v => v.msgs

mutual

/-- Structural well-formedness of a schema node, i.e. the arity facts the
C validators read without checking: a `CK_LIST`/`CK_SET` node has at least
one compiled argument and a `CK_DICT` node at least two (`validate_list`,
`validate_set` and `validate_dict` index `args` blindly), recursively.
Every schema the compiler produces with those kinds satisfies this. -/
def tsWF : TypeSchema → Bool
  | .mk _ _ args _ _ ck _ =>
    (match ck with
     | .LIST => !args.isEmpty
     | .SET => !args.isEmpty
     | .DICT => decide (2 ≤ args.length)
     | _ => true) && tsWFList args

/-- Well-formedness of every node of a schema list. -/
def tsWFList : List TypeSchema → Bool
  | [] => true
  | t :: rest => tsWF t && tsWFList rest

end

/-- The `k` extends the path `p` (equal to it or a dotted descendant). -/
def ExtendsP (p k : String) : Prop := ∃ s, k = p ++ s

/-- Relation between the collector before and after an engine call at
`path`: the document only grows, and every key it gained extends `path`. -/
def CollOk (path : String) (c c2 : ErrorCollector) : Prop :=
  c.w ≤ c2.w ∧ ∀ k ∈ c2.keys, k ∈ c.keys ∨ ExtendsP path k

/-- Full postcondition of an engine call at `path`: the collector grew
per `CollOk` and strictly whenever the call failed. -/
def Grow {α : Type} (path : String) (c : ErrorCollector)
    (out : Option α × ErrorCollector) : Prop :=
  CollOk path c out.2 ∧ (out.1 = Option.none → c.w < out.2.w)

/-- The plain-value path exactly as the specification words it: identity
for an instance of the declared type; else the registered deserializer for
(declared type, runtime type), its result accepted only if an instance and
silently discarded otherwise; else the dedicated kind coercion for the
four primitive kinds; else the declared type's one-argument constructor
under the accept-only-if-instance rule, recording "Expected type X, got Y"
on failure.  Written for comparison against `validate_plain`. -/
def plain_path_spec (env : Env) : Nat → PyVal → TypeSchema →
    ErrorCollector → String → Option Deserializers →
    Option (Option PyVal × ErrorCollector)
  | 0, _, _, _, _, _ => none
  | fuel + 1, value, ts, c, path, desers =>
    if isinstE value ts.expected then some (some value, c)
    else
      let viaDeser : Option PyVal :=
        match desers with
        | some d =>
          match get_deserializer d ts.expected (typeOf value) with
          | some fid =>
            match env.vcall fid [value] with
            | .ok r => if isinstE r ts.expected then some r else none
            | .error _ => none
          | none => none
        | none => none
      match viaDeser with
      | some r => some (some r, c)
      | none =>
        if teBeq ts.expected (.cls .intT) then
          some (validate_int env value c path)
        else if teBeq ts.expected (.cls .strT) then
          some (validate_str env value c path)
        else if teBeq ts.expected (.cls .floatT) then
          some (validate_float env value c path)
        else if teBeq ts.expected (.cls .boolT) then
          some (validate_bool env value c path)
        else
          match call_expr_pos env fuel ts.expected value with
          | none => none
          | some (.ok conv) =>
            if isinstE conv ts.expected then some (some conv, c)
            else
              some (none, c.add_error path
                ("Expected type " ++ typeNameE env ts.expected ++ ", got " ++
                  typeNameV env value))
          | some (.error _) =>
            some (none, c.add_error path
              ("Expected type " ++ typeNameE env ts.expected ++ ", got " ++
                typeNameV env value))

/-- The first-pass union test on one candidate, as `validate_union` runs
it: the candidate's origin when it has one (a container alternative's
normalized origin), else its declared type. -/
def unionFirstMatch (value : PyVal) (candidate : TypeSchema) : Bool :=
  match candidate.origin with
  | some o => isinstO value o
  | none => isinstE value candidate.expected

/-- An environment with no models, callables, or foreign classes. -/
def trivEnv : Env :=
  { models := fun _ => none,
    vcall := fun _ _ => .error (.raw "no such callable"),
    arity := fun _ => 2, ctor := fun _ _ => .error (.raw "no such class"),
    typeNameOf := fun _ => "object" }

/-- The compiled schema of a bare `int` annotation. -/
def intSchema : TypeSchema := compile_type_schema (.cls .intT)

/-- The compiled schema of `List[int]`. -/
def listIntSchema : TypeSchema :=
  compile_type_schema (.generic (.cls .listT) (some [.cls .intT]))

/-- The compiled schema of `Union[str, int]`. -/
def unionStrIntSchema : TypeSchema :=
  compile_type_schema (.generic .unionO (some [.cls .strT, .cls .intT]))

/-- A required `int` field with no alias, default, or factory. -/
def fsReq : FieldSchema :=
  { field_name := "a", alias_list := none, default_value := none,
    default_factory := none, type_schema := intSchema }

/-- A model with two required `int` fields and no hooks. -/
def twoFieldSchema : SchemaCache :=
  { class_name := "M",
    fields := [fsReq,
      { field_name := "b", alias_list := none, default_value := none,
        default_factory := none, type_schema := intSchema }],
    instance_anns := [("a", .cls .intT), ("b", .cls .intT)],
    validators := ⟨[], [], [], []⟩,
    has_field_before := false, has_field_after := false,
    has_model_before := false, has_model_after := false,
    deserializers := none }

/-- The `trivEnv` plus `twoFieldSchema` registered as model class 0. -/
def twoFieldEnv : Env :=
  { trivEnv with
    models := fun cid => if cid = 0 then some twoFieldSchema else none }

/-- A model schema for the attribute-assignment claims: field `a : int`
and a ClassVar annotation `cv`. -/
def attrSchema : SchemaCache :=
  { class_name := "A",
    fields := [fsReq],
    instance_anns := [("a", .cls .intT),
      ("cv", .generic .classVarO (some [.cls .intT]))],
    validators := ⟨[], [], [], []⟩,
    has_field_before := false, has_field_after := false,
    has_model_before := false, has_model_after := false,
    deserializers := none }

/-- An `int` field whose alias list is `["x", "y"]`. -/
def fsAliased : FieldSchema :=
  { field_name := "a", alias_list := some ["x", "y"], default_value := none,
    default_factory := none, type_schema := intSchema }

/-- An environment where callable 1 is a zero-argument factory returning
`7` and every other call raises. -/
def factEnv : Env :=
  { trivEnv with
    vcall := fun id args =>
      match id, args with
      | 1, [] => .ok (.int 7)
      | _, _ => .error (.raw "factory failed") }

/-- The recorded exceptions: an `add_suberror` of such an exception always
stores at least one member or message.  The engine's own TypeError trees
are nonempty when raised; a user exception records unless its text parses
as the empty JSON object. -/
def excRecords (e : Exc) : Prop :=
  match e with
  | .typeError tree => tree ≠ []
  | .other (.obj members) => members ≠ []
  | _ => True

/-- No user callable of the environment raises an exception whose text
parses as the empty JSON object `"{}"` -- the one exception text whose
sub-error merge records nothing. -/
def NoEmptyObjRaise (env : Env) : Prop :=
  ∀ id args, env.vcall id args ≠ .error (.obj [])

/-- A model whose model-before validator (callable 9) raises an exception
printing as `"{}"`: the nested-construction failure then merges an empty
object and records nothing. -/
def emptyRaiseSchema : SchemaCache :=
  { class_name := "E",
    fields := [],
    instance_anns := [],
    validators := ⟨[], [9], [], []⟩,
    has_field_before := false, has_field_after := false,
    has_model_before := true, has_model_after := false,
    deserializers := none }

/-- The `trivEnv` plus `emptyRaiseSchema` as model class 0 and callable 9
raising an exception whose text is the empty JSON object. -/
def emptyRaiseEnv : Env :=
  { trivEnv with
    models := fun cid => if cid = 0 then some emptyRaiseSchema else none,
    vcall := fun id _ =>
      if id = 9 then .error (.obj []) else .error (.raw "no such callable") }

theorem treeGet_addError_self (t : ErrTree) (p m : String) :
    treeGet (treeAddError t p m) p =
      some (match treeGet t p with
        | none => .s m
        | some (.s m0) => .arr [.s m0, .s m]
        | some (.arr xs) => .arr (xs ++ [.s m])) := by
  induction t with
  | nil => simp [treeAddError, treeGet]
  | cons kv rest ih =>
    obtain ⟨k, v⟩ := kv
    by_cases hk : k = p
    · subst hk
      cases v <;> simp [treeAddError, treeGet]
    · simp [treeAddError, treeGet, hk, ih]

theorem treeGet_addError_other (t : ErrTree) (p q m : String) (hq : q ≠ p) :
    treeGet (treeAddError t p m) q = treeGet t q := by
  induction t with
  | nil =>
    have : ¬ (p = q) := fun h => hq h.symm
    simp [treeAddError, treeGet, this]
  | cons kv rest ih =>
    obtain ⟨k, v⟩ := kv
    by_cases hk : k = p
    · subst hk
      have : ¬ (k = q) := fun h => hq h.symm
      cases v <;> simp [treeAddError, treeGet, this]
    · by_cases hkq : k = q
      · subst hkq
        simp [treeAddError, treeGet, hk]
      · simp [treeAddError, treeGet, hk, hkq, ih]

theorem msgsList_append (xs ys : List JVal) :
    JVal.msgsList (xs ++ ys) = JVal.msgsList xs ++ JVal.msgsList ys := by
  induction xs with
  | nil => simp [JVal.msgsList]
  | cons v vs ih => simp [JVal.msgsList, ih]

theorem msgsAt_addError (c : ErrorCollector) (p m q : String) :
    msgsAt (c.add_error p m) q =
      msgsAt c q ++ (if q = p then [m] else []) := by
  by_cases hq : q = p
  · subst hq
    have h := treeGet_addError_self (c.doc.getD []) q m
    simp only [msgsAt, ErrorCollector.add_error, Option.getD_some, h]
    cases hg : treeGet (c.doc.getD []) q with
    | none => simp [hg, JVal.msgs, JVal.msgsList]
    | some v =>
      cases v with
      | s m0 => simp [hg, JVal.msgs, JVal.msgsList]
      | arr xs => simp [hg, JVal.msgs, msgsList_append, JVal.msgsList]
  · have h := treeGet_addError_other (c.doc.getD []) p q m hq
    simp [msgsAt, ErrorCollector.add_error, h, hq]

theorem treeAddError_ne_nil (t : ErrTree) (p m : String) :
    treeAddError t p m ≠ [] := by
  cases t with
  | nil => simp [treeAddError]
  | cons kv rest =>
    obtain ⟨k, v⟩ := kv
    by_cases hk : k = p
    · subst hk
      cases v <;> simp [treeAddError]
    · simp [treeAddError, hk]

theorem addError_has_errors (c : ErrorCollector) (p m : String) :
    (c.add_error p m).has_errors = true := by
  simp [ErrorCollector.add_error, ErrorCollector.has_errors,
    List.isEmpty_iff, treeAddError_ne_nil]

theorem empty_has_errors : ErrorCollector.empty.has_errors = false := rfl

theorem jw_pos (v : JVal) : 1 ≤ v.w := by
  cases v with
  | s _ => simp [JVal.w]
  | arr xs => simp [JVal.w]

theorem wList_append (xs ys : List JVal) :
    JVal.wList (xs ++ ys) = JVal.wList xs + JVal.wList ys := by
  induction xs with
  | nil => simp [JVal.wList]
  | cons v vs ih => simp [JVal.wList, ih]; omega

theorem treeAddError_w_ge (t : ErrTree) (p m : String) :
    treeW t + 1 ≤ treeW (treeAddError t p m) := by
  induction t with
  | nil => simp [treeAddError, treeW, JVal.w]
  | cons kv rest ih =>
    obtain ⟨k, v⟩ := kv
    by_cases hk : k = p
    · subst hk
      cases v with
      | s m0 => simp [treeAddError, treeW, JVal.w, JVal.wList]; omega
      | arr xs =>
        simp [treeAddError, treeW, JVal.w, wList_append, JVal.wList]
        omega
    · simp only [treeAddError, hk, if_false, treeW]
      omega

theorem treeAddVal_w_ge (t : ErrTree) (p : String) (v : JVal) :
    treeW t + 1 ≤ treeW (treeAddVal t p v) := by
  induction t with
  | nil =>
    have := jw_pos v
    simp [treeAddVal, treeW]
    omega
  | cons kv rest ih =>
    obtain ⟨k, v0⟩ := kv
    by_cases hk : k = p
    · subst hk
      have := jw_pos v
      cases v0 with
      | s m0 => simp [treeAddVal, treeW, JVal.w, JVal.wList]; omega
      | arr xs =>
        simp [treeAddVal, treeW, JVal.w, wList_append, JVal.wList]
        omega
    · simp only [treeAddVal, hk, if_false, treeW]
      omega

theorem treeMergeSub_w_ge (sub : ErrTree) (t : ErrTree) (f : String) :
    treeW t ≤ treeW (treeMergeSub t f sub) := by
  induction sub generalizing t with
  | nil => simp [treeMergeSub]
  | cons kv rest ih =>
    obtain ⟨k, v⟩ := kv
    have h1 := treeAddVal_w_ge t (f ++ "." ++ k) v
    have h2 := ih (treeAddVal t (f ++ "." ++ k) v)
    simp only [treeMergeSub]
    omega

theorem treeMergeSub_w_gt (sub : ErrTree) (t : ErrTree) (f : String)
    (h : sub ≠ []) : treeW t + 1 ≤ treeW (treeMergeSub t f sub) := by
  cases sub with
  | nil => exact absurd rfl h
  | cons kv rest =>
    obtain ⟨k, v⟩ := kv
    have h1 := treeAddVal_w_ge t (f ++ "." ++ k) v
    have h2 := treeMergeSub_w_ge rest (treeAddVal t (f ++ "." ++ k) v) f
    simp only [treeMergeSub]
    omega

theorem treeAddError_keys (t : ErrTree) (p m : String) :
    ∀ k ∈ treeKeys (treeAddError t p m), k ∈ treeKeys t ∨ k = p := by
  induction t with
  | nil => simp [treeAddError, treeKeys]
  | cons kv rest ih =>
    obtain ⟨k0, v⟩ := kv
    by_cases hk : k0 = p
    · subst hk
      cases v <;> simp [treeAddError, treeKeys] <;> tauto
    · intro k hmem
      simp only [treeAddError, hk, if_false, treeKeys, List.map_cons,
        List.mem_cons] at hmem
      rcases hmem with h | h
      · exact Or.inl (by simp [treeKeys, h])
      · rcases ih k h with h2 | h2
        · exact Or.inl (by simp [treeKeys] at h2 ⊢; tauto)
        · exact Or.inr h2

theorem treeAddVal_keys (t : ErrTree) (p : String) (v : JVal) :
    ∀ k ∈ treeKeys (treeAddVal t p v), k ∈ treeKeys t ∨ k = p := by
  induction t with
  | nil => simp [treeAddVal, treeKeys]
  | cons kv rest ih =>
    obtain ⟨k0, v0⟩ := kv
    by_cases hk : k0 = p
    · subst hk
      cases v0 <;> simp [treeAddVal, treeKeys] <;> tauto
    · intro k hmem
      simp only [treeAddVal, hk, if_false, treeKeys, List.map_cons,
        List.mem_cons] at hmem
      rcases hmem with h | h
      · exact Or.inl (by simp [treeKeys, h])
      · rcases ih k h with h2 | h2
        · exact Or.inl (by simp [treeKeys] at h2 ⊢; tauto)
        · exact Or.inr h2

theorem treeMergeSub_keys (sub : ErrTree) (t : ErrTree) (f : String) :
    ∀ k ∈ treeKeys (treeMergeSub t f sub),
      k ∈ treeKeys t ∨ ∃ k0, k = f ++ "." ++ k0 := by
  induction sub generalizing t with
  | nil => simp only [treeMergeSub]; tauto
  | cons kv rest ih =>
    obtain ⟨k1, v⟩ := kv
    intro k hmem
    simp only [treeMergeSub] at hmem
    rcases ih (treeAddVal t (f ++ "." ++ k1) v) k hmem with h | h
    · rcases treeAddVal_keys t (f ++ "." ++ k1) v k h with h2 | h2
      · exact Or.inl h2
      · exact Or.inr ⟨k1, h2⟩
    · exact Or.inr h

theorem add_error_w (c : ErrorCollector) (p m : String) :
    c.w + 1 ≤ (c.add_error p m).w := by
  simpa [ErrorCollector.add_error, ErrorCollector.w] using
    treeAddError_w_ge (c.doc.getD []) p m

theorem add_error_keys (c : ErrorCollector) (p m : String) :
    ∀ k ∈ (c.add_error p m).keys, k ∈ c.keys ∨ k = p := by
  simpa [ErrorCollector.add_error, ErrorCollector.keys] using
    treeAddError_keys (c.doc.getD []) p m

theorem has_errors_getD_ne_nil (c : ErrorCollector)
    (h : c.has_errors = true) : c.doc.getD [] ≠ [] := by
  cases hd : c.doc with
  | none => simp [ErrorCollector.has_errors, hd] at h
  | some t =>
    simp only [ErrorCollector.has_errors, hd, Bool.not_eq_true'] at h
    simp only [hd, Option.getD_some]
    intro hnil
    rw [hnil] at h
    simp at h

theorem add_suberror_w (c : ErrorCollector) (f : String) (e : Exc)
    (h : excRecords e) : c.w + 1 ≤ (c.add_suberror f e).w := by
  cases e with
  | typeError t =>
    have ht : t ≠ [] := h
    simpa [ErrorCollector.add_suberror, ErrorCollector.w] using
      treeMergeSub_w_gt t (c.doc.getD []) f ht
  | typeErrorMsg m => exact add_error_w c f _
  | attrError m => exact add_error_w c f _
  | other text =>
    cases text with
    | obj members =>
      have hm : members ≠ [] := h
      simpa [ErrorCollector.add_suberror, ErrorCollector.w] using
        treeMergeSub_w_gt members (c.doc.getD []) f hm
    | raw m => exact add_error_w c f _

theorem add_suberror_keys (c : ErrorCollector) (f : String) (e : Exc) :
    ∀ k ∈ (c.add_suberror f e).keys, k ∈ c.keys ∨ ExtendsP f k := by
  cases e with
  | typeError t =>
    intro k hk
    simp only [ErrorCollector.add_suberror, ErrorCollector.keys,
      Option.getD_some] at hk
    rcases treeMergeSub_keys t (c.doc.getD []) f k hk with h | ⟨k0, h⟩
    · exact Or.inl h
    · exact Or.inr ⟨"." ++ k0, by rw [h, String.append_assoc]⟩
  | typeErrorMsg m =>
    intro k hk
    rcases add_error_keys c f _ k hk with h | h
    · exact Or.inl h
    · exact Or.inr ⟨"", by rw [h, String.append_empty]⟩
  | attrError m =>
    intro k hk
    rcases add_error_keys c f _ k hk with h | h
    · exact Or.inl h
    · exact Or.inr ⟨"", by rw [h, String.append_empty]⟩
  | other text =>
    cases text with
    | obj members =>
      intro k hk
      simp only [ErrorCollector.add_suberror, ErrorCollector.keys,
        Option.getD_some] at hk
      rcases treeMergeSub_keys members (c.doc.getD []) f k hk with h | ⟨k0, h⟩
      · exact Or.inl h
      · exact Or.inr ⟨"." ++ k0, by rw [h, String.append_assoc]⟩
    | raw m =>
      intro k hk
      rcases add_error_keys c f _ k hk with h | h
      · exact Or.inl h
      · exact Or.inr ⟨"", by rw [h, String.append_empty]⟩

theorem extendsP_self (p : String) : ExtendsP p p :=
  ⟨"", by rw [String.append_empty]⟩

theorem extendsP_append (p x : String) : ExtendsP p (p ++ x) := ⟨x, rfl⟩

theorem extendsP_trans_append (p x k : String)
    (h : ExtendsP (p ++ x) k) : ExtendsP p k := by
  obtain ⟨s, hs⟩ := h
  exact ⟨x ++ s, by rw [hs, String.append_assoc]⟩

theorem collOk_refl (path : String) (c : ErrorCollector) : CollOk path c c :=
  ⟨le_refl _, fun _ hk => Or.inl hk⟩

theorem collOk_trans {path : String} {c1 c2 c3 : ErrorCollector}
    (h1 : CollOk path c1 c2) (h2 : CollOk path c2 c3) : CollOk path c1 c3 := by
  refine ⟨le_trans h1.1 h2.1, fun k hk => ?_⟩
  rcases h2.2 k hk with h | h
  · exact h1.2 k h
  · exact Or.inr h

theorem collOk_addError (path key m : String) (c : ErrorCollector)
    (hkey : ExtendsP path key) : CollOk path c (c.add_error key m) := by
  refine ⟨le_trans (Nat.le_succ _) (add_error_w c key m), fun k hk => ?_⟩
  rcases add_error_keys c key m k hk with h | h
  · exact Or.inl h
  · subst h
    exact Or.inr hkey

theorem collOk_addSuberror (path key : String) (e : Exc) (c : ErrorCollector)
    (hkey : ExtendsP path key) : CollOk path c (c.add_suberror key e) := by
  constructor
  · cases e with
    | typeError t =>
      simpa [ErrorCollector.add_suberror, ErrorCollector.w] using
        treeMergeSub_w_ge t (c.doc.getD []) key
    | typeErrorMsg m => exact le_trans (Nat.le_succ _) (add_error_w c key _)
    | attrError m => exact le_trans (Nat.le_succ _) (add_error_w c key _)
    | other text =>
      cases text with
      | obj members =>
        simpa [ErrorCollector.add_suberror, ErrorCollector.w] using
          treeMergeSub_w_ge members (c.doc.getD []) key
      | raw m => exact le_trans (Nat.le_succ _) (add_error_w c key _)
  · intro k hk
    rcases add_suberror_keys c key e k hk with h | h
    · exact Or.inl h
    · obtain ⟨x, hx⟩ := hkey
      exact Or.inr (by
        subst hx
        exact extendsP_trans_append path x k h)

/-- C8: `ErrorCollector::add_error` appends: the first error at a path is
stored as a scalar message; a second error at the same path converts the
entry to an array and appends; other paths are untouched; the flattened
message list at every path only ever gains the new message at its end, so
nothing is overwritten or lost; and `has_errors()` is true exactly when at
least one error has been recorded (true after any `add_error`, false on a
fresh collector). -/
theorem claim_C8_collector_append_policy :
    (∀ (c : ErrorCollector) (p m : String), treeGet (c.doc.getD []) p = none →
        treeGet ((c.add_error p m).doc.getD []) p = some (.s m))
  ∧ (∀ (c : ErrorCollector) (p m0 m : String),
        treeGet (c.doc.getD []) p = some (.s m0) →
        treeGet ((c.add_error p m).doc.getD []) p = some (.arr [.s m0, .s m]))
  ∧ (∀ (c : ErrorCollector) (p m : String) (xs : List JVal),
        treeGet (c.doc.getD []) p = some (.arr xs) →
        treeGet ((c.add_error p m).doc.getD []) p = some (.arr (xs ++ [.s m])))
  ∧ (∀ (c : ErrorCollector) (p q m : String), q ≠ p →
        treeGet ((c.add_error p m).doc.getD []) q = treeGet (c.doc.getD []) q)
  ∧ (∀ (c : ErrorCollector) (p m q : String),
        msgsAt (c.add_error p m) q = msgsAt c q ++ (if q = p then [m] else []))
  ∧ (∀ (c : ErrorCollector) (p m : String), (c.add_error p m).has_errors = true)
  ∧ (ErrorCollector.empty.has_errors = false) := by
  refine ⟨?_, ?_, ?_, ?_, ?_, ?_, ?_⟩
  · intro c p m h
    have hs := treeGet_addError_self (c.doc.getD []) p m
    rw [h] at hs
    simpa [ErrorCollector.add_error] using hs
  · intro c p m0 m h
    have hs := treeGet_addError_self (c.doc.getD []) p m
    rw [h] at hs
    simpa [ErrorCollector.add_error] using hs
  · intro c p m xs h
    have hs := treeGet_addError_self (c.doc.getD []) p m
    rw [h] at hs
    simpa [ErrorCollector.add_error] using hs
  · intro c p q m hq
    simpa [ErrorCollector.add_error] using
      treeGet_addError_other (c.doc.getD []) p q m hq
  · intro c p m q
    exact msgsAt_addError c p m q
  · intro c p m
    exact addError_has_errors c p m
  · exact empty_has_errors

theorem claim_C8_witness :
    treeGet (((ErrorCollector.empty.add_error "a" "m1").add_error "a"
        "m2").doc.getD []) "a" = some (.arr [.s "m1", .s "m2"]) :=
  claim_C8_collector_append_policy.2.1
    (ErrorCollector.empty.add_error "a" "m1") "a" "m1" "m2" rfl

/-- C10: a boolean input at a position declared `int` takes the
plain-value path, passes `PyObject_IsInstance(value, int)` because bool is
a subclass of int, and is returned unchanged as the same boolean object --
it is never coerced to the integer 1 or 0. -/
theorem claim_C10_bool_passes_int (env : Env) (fuel : Nat) (b : Bool)
    (c : ErrorCollector) (p : String) (d : Option Deserializers) :
    validate_and_convert env (fuel + 2) (.bool b)
      (compile_type_schema (.cls .intT)) c p d = some (some (.bool b), c) := rfl

/-- C6: field-input resolution tries the alias list in declared order
before the canonical name: with an alias list present, the value under the
first present alias is used even when the canonical key is also present;
the list is probed left to right; only when no alias matches (or no alias
list exists) is the canonical name consulted. -/
theorem claim_C6_alias_precedence :
    (∀ (fs : FieldSchema) (kw : Kwds) (al : List String) (v : PyVal),
        fs.alias_list = some al →
        al.findSome? (fun a => kwLookup kw a) = some v →
        resolve_field_input fs (some kw) = some v)
  ∧ (∀ (fs : FieldSchema) (kw : Kwds) (al : List String),
        fs.alias_list = some al →
        al.findSome? (fun a => kwLookup kw a) = none →
        resolve_field_input fs (some kw) = kwLookup kw fs.field_name)
  ∧ (∀ (kw : Kwds) (a : String) (al : List String) (v : PyVal),
        kwLookup kw a = some v →
        (a :: al).findSome? (fun x => kwLookup kw x) = some v)
  ∧ (∀ (kw : Kwds) (a : String) (al : List String),
        kwLookup kw a = none →
        (a :: al).findSome? (fun x => kwLookup kw x) =
          al.findSome? (fun x => kwLookup kw x))
  ∧ (∀ (fs : FieldSchema) (kw : Kwds), fs.alias_list = none →
        resolve_field_input fs (some kw) = kwLookup kw fs.field_name) := by
  refine ⟨?_, ?_, ?_, ?_, ?_⟩
  · intro fs kw al v h1 h2
    simp [resolve_field_input, h1, h2]
  · intro fs kw al h1 h2
    simp [resolve_field_input, h1, h2]
  · intro kw a al v h
    simp [List.findSome?_cons, h]
  · intro kw a al h
    simp [List.findSome?_cons, h]
  · intro fs kw h
    simp [resolve_field_input, h]

theorem claim_C6_witness :
    resolve_field_input fsAliased
      (some [(.str "y", .int 5), (.str "a", .int 9)]) = some (.int 5) :=
  claim_C6_alias_precedence.1 fsAliased
    [(.str "y", .int 5), (.str "a", .int 9)] ["x", "y"] (.int 5) rfl rfl

/-- C4: for a field absent from the input under every alias and the
canonical name, the resolution ladder is: invoke the default factory if
declared (a raising factory records "Missing required field and default
factory call failed" and moves on); else use the fixed default; else, for
an optional type schema, validate null; else record exactly one error
"Missing required field" at the field's path. -/
theorem claim_C4_missing_field_ladder :
    (∀ (env : Env) (fuel : Nat) (fs : FieldSchema) (kwds : Option Kwds)
        (d : Option Deserializers) (c : ErrorCollector) (flds : Fields)
        (fid : Nat) (v : PyVal),
        resolve_field_input fs kwds = none →
        fs.default_factory = some fid → env.vcall fid [] = .ok v →
        init_field_step env (fuel + 1) fs kwds d c flds =
          init_validate_store env fuel fs d c flds v)
  ∧ (∀ (env : Env) (fuel : Nat) (fs : FieldSchema) (kwds : Option Kwds)
        (d : Option Deserializers) (c : ErrorCollector) (flds : Fields)
        (fid : Nat) (msg : ExcText),
        resolve_field_input fs kwds = none →
        fs.default_factory = some fid → env.vcall fid [] = .error msg →
        init_field_step env (fuel + 1) fs kwds d c flds =
          some (c.add_error fs.field_name
            "Missing required field and default factory call failed", flds))
  ∧ (∀ (env : Env) (fuel : Nat) (fs : FieldSchema) (kwds : Option Kwds)
        (d : Option Deserializers) (c : ErrorCollector) (flds : Fields)
        (dv : PyVal),
        resolve_field_input fs kwds = none →
        fs.default_factory = none → fs.default_value = some dv →
        init_field_step env (fuel + 1) fs kwds d c flds =
          init_validate_store env fuel fs d c flds dv)
  ∧ (∀ (env : Env) (fuel : Nat) (fs : FieldSchema) (kwds : Option Kwds)
        (d : Option Deserializers) (c : ErrorCollector) (flds : Fields),
        resolve_field_input fs kwds = none →
        fs.default_factory = none → fs.default_value = none →
        fs.type_schema.is_optional = true →
        init_field_step env (fuel + 1) fs kwds d c flds =
          init_validate_store env fuel fs d c flds .none)
  ∧ (∀ (env : Env) (fuel : Nat) (fs : FieldSchema) (kwds : Option Kwds)
        (d : Option Deserializers) (c : ErrorCollector) (flds : Fields),
        resolve_field_input fs kwds = none →
        fs.default_factory = none → fs.default_value = none →
        fs.type_schema.is_optional = false →
        init_field_step env (fuel + 1) fs kwds d c flds =
          some (c.add_error fs.field_name "Missing required field", flds)) := by
  refine ⟨?_, ?_, ?_, ?_, ?_⟩
  · intro env fuel fs kwds d c flds fid v h1 h2 h3
    simp [init_field_step, h1, h2, h3]
  · intro env fuel fs kwds d c flds fid msg h1 h2 h3
    simp [init_field_step, h1, h2, h3]
  · intro env fuel fs kwds d c flds dv h1 h2 h3
    simp [init_field_step, h1, h2, h3]
  · intro env fuel fs kwds d c flds h1 h2 h3 h4
    simp [init_field_step, h1, h2, h3, h4]
  · intro env fuel fs kwds d c flds h1 h2 h3 h4
    simp [init_field_step, h1, h2, h3, h4]

theorem claim_C4_witness :
    init_field_step trivEnv 1 fsReq (some []) none .empty [] =
      some (ErrorCollector.empty.add_error "a" "Missing required field",
        []) :=
  claim_C4_missing_field_ladder.2.2.2.2 trivEnv 0 fsReq (some []) none
    .empty [] rfl rfl rfl rfl

/-- C2 counterexample: against `List[int]` at field path "f", the input
`["x", "y"]` has two failing elements, yet the engine records only the
error at "f.0" and aborts -- element 1 is never attempted and no "f.1"
entry exists, refuting "every element of the input list is attempted
regardless of earlier element failures, and each failing element records
an error". -/
theorem claim_C2_counterexample :
    validate_and_convert trivEnv 6 (.list [.str "x", .str "y"])
        listIntSchema .empty "f" none =
      some (none, ⟨some [("f.0", .s "Expected type int, got str")]⟩)
  ∧ ("f.1" ∉ (ErrorCollector.mk
      (some [("f.0", .s "Expected type int, got str")])).keys) := by
  constructor
  · rfl
  · decide

/-- C2 amended: list elements are validated in declaration order and the
first failing element aborts the list, so errors surface only up to and
including the first failure; in particular `["1", 2, "x"]` against
`List[int]` coerces indices 0 and 1 and fails exactly at path "f.2", and
appending further elements after a failing run changes nothing. -/
theorem claim_C2_list_first_failure :
    (validate_and_convert trivEnv 12 (.list [.str "1", .int 2, .str "x"])
        listIntSchema .empty "f" none =
      some (none, ⟨some [("f.2", .s "Expected type int, got str")]⟩))
  ∧ (∀ (env : Env) (fuel : Nat) (ets : TypeSchema) (xs more : List PyVal)
        (c c2 : ErrorCollector) (path : String) (i : Nat)
        (d : Option Deserializers),
        validate_list_items env fuel ets xs c path i d = some (none, c2) →
        validate_list_items env fuel ets (xs ++ more) c path i d =
          some (none, c2)) := by
  constructor
  · rfl
  · intro env fuel ets xs more c c2 path i d h
    induction xs generalizing fuel c i with
    | nil =>
      cases fuel with
      | zero => simp [validate_list_items] at h
      | succ n => simp [validate_list_items] at h
    | cons x rest ih =>
      cases fuel with
      | zero => simp [validate_list_items] at h
      | succ n =>
        rw [List.cons_append]
        simp only [validate_list_items] at h ⊢
        cases hv : validate_and_convert env n x ets c
            (path ++ "." ++ toString i) d with
        | none => rw [hv] at h; exact absurd h (by simp)
        | some out =>
          obtain ⟨r, c3⟩ := out
          rw [hv] at h
          cases r with
          | none => simpa using h
          | some y =>
            dsimp only at h ⊢
            cases hrest : validate_list_items env n ets rest c3 path
                (i + 1) d with
            | none => rw [hrest] at h; exact absurd h (by simp)
            | some out2 =>
              obtain ⟨r2, c4⟩ := out2
              rw [hrest] at h
              cases r2 with
              | none =>
                dsimp only at h
                have hc : c4 = c2 := by
                  simpa using h
                subst hc
                rw [ih n c3 (i + 1) hrest]
              | some ys => simp at h

    
/-- C5: record construction is fail-together: each field step feeds the
next regardless of recorded errors (the loop never aborts early), a field
whose conversion fails stores the original unconverted value as the
placeholder, a model whose loop collected any error aborts with the full
rendered tree and returns no instance, and two missing required fields
yield exactly the two-entry ErrorTree. -/
theorem claim_C5_fail_together :
    (DataModel_init twoFieldEnv 6 0 (some []) =
      some (.error (.typeError [("a", .s "Missing required field"),
        ("b", .s "Missing required field")])))
  ∧ ([("a", JVal.s "Missing required field"),
      ("b", JVal.s "Missing required field")].length = 2)
  ∧ (∀ (env : Env) (fuel : Nat) (fs : FieldSchema) (rest : List FieldSchema)
        (kw : Option Kwds) (d : Option Deserializers) (c : ErrorCollector)
        (flds : Fields) (st : ErrorCollector × Fields),
        init_field_step env fuel fs kw d c flds = some st →
        init_fields env (fuel + 1) (fs :: rest) kw d c flds =
          init_fields env fuel rest kw d st.1 st.2)
  ∧ (∀ (env : Env) (fuel : Nat) (fs : FieldSchema)
        (d : Option Deserializers) (c c2 : ErrorCollector) (flds : Fields)
        (v : PyVal),
        validate_and_convert env fuel v fs.type_schema c fs.field_name d =
          some (none, c2) →
        init_validate_store env (fuel + 1) fs d c flds v =
          some (c2, fieldsSet flds fs.field_name v))
  ∧ (∀ (env : Env) (fuel : Nat) (cid : Nat) (kwds : Option Kwds)
        (schema : SchemaCache) (flds : Fields),
        env.models cid = some schema →
        schema.has_model_before = false → schema.has_field_before = false →
        schema.has_field_after = false → schema.has_model_after = false →
        DataModel_init env (fuel + 1) cid kwds = some (.ok flds) →
        ∃ c0, init_fields env fuel schema.fields kwds schema.deserializers
            .empty [] = some (c0, flds) ∧ c0.has_errors = false) := by
  refine ⟨rfl, rfl, ?_, ?_, ?_⟩
  · intro env fuel fs rest kw d c flds st h
    simp [init_fields, h]
  · intro env fuel fs d c c2 flds v h
    simp [init_validate_store, h]
  · intro env fuel cid kwds schema flds hm hmb hfb hfa hma hinit
    have hrmb : run_model_before_validators env schema cid kwds = .ok kwds := by
      simp [run_model_before_validators, hmb]
    have hrfb : run_field_before_validators env schema cid kwds = .ok kwds := by
      simp [run_field_before_validators, hfb]
    simp only [DataModel_init, hm, hrmb, hrfb] at hinit
    cases hif : init_fields env fuel schema.fields kwds schema.deserializers
        .empty [] with
    | none => rw [hif] at hinit; exact absurd hinit (by simp)
    | some st =>
      obtain ⟨c0, f0⟩ := st
      rw [hif] at hinit
      dsimp only at hinit
      by_cases hhe : c0.has_errors = true
      · rw [if_pos hhe] at hinit
        exact absurd hinit (by simp)
      · rw [if_neg hhe] at hinit
        cases fuel with
        | zero =>
          simp [run_field_after_validators] at hinit
        | succ g =>
          have hfav : run_field_after_validators env (g + 1) schema cid f0 =
              some (.ok f0) := by
            simp [run_field_after_validators, hfa]
          rw [hfav] at hinit
          dsimp only at hinit
          have hrma : run_model_after_validators env schema cid f0 = .ok () := by
            simp [run_model_after_validators, hma]
          rw [hrma] at hinit
          dsimp only at hinit
          simp only [Option.some_inj, Except.ok.injEq] at hinit
          subst hinit
          exact ⟨c0, rfl, by simpa using hhe⟩

theorem claim_C5_witness :
    init_fields trivEnv 3 [fsReq] (some []) none .empty [] =
      init_fields trivEnv 2 [] (some []) none
        (ErrorCollector.empty.add_error "a" "Missing required field") [] :=
  claim_C5_fail_together.2.2.1 trivEnv 2 fsReq [] (some []) none .empty []
    (ErrorCollector.empty.add_error "a" "Missing required field", []) rfl

/-- C9: attribute assignment is validated: an annotated non-ClassVar name
runs `validate_and_convert` against the compiled annotation with a fresh
collector, failure raising a TypeError that carries the rendered error
tree while the store is left untouched, success storing the converted
value; a ClassVar name raises AttributeError; a name absent from the
annotations is stored directly with no validation. -/
theorem claim_C9_setattr_validates :
    (∀ (env : Env) (fuel : Nat) (schema : SchemaCache) (fields : Fields)
        (name : String) (value : PyVal) (e : TyExpr),
        strLookup schema.instance_anns name = some e → is_class_var e = true →
        DataModel_setattro env (fuel + 1) schema fields name value =
          some (.error (.attrError "Cannot set ClassVar attribute")))
  ∧ (∀ (env : Env) (fuel : Nat) (schema : SchemaCache) (fields : Fields)
        (name : String) (value : PyVal) (e : TyExpr) (c2 : ErrorCollector),
        strLookup schema.instance_anns name = some e → is_class_var e = false →
        validate_and_convert env fuel value (compile_type_schema e) .empty
          name schema.deserializers = some (none, c2) →
        c2.has_errors = true →
        DataModel_setattro env (fuel + 1) schema fields name value =
          some (.error (.typeError (c2.doc.getD []))))
  ∧ (∀ (env : Env) (fuel : Nat) (schema : SchemaCache) (fields : Fields)
        (name : String) (value : PyVal) (e : TyExpr) (conv : PyVal)
        (c2 : ErrorCollector),
        strLookup schema.instance_anns name = some e → is_class_var e = false →
        validate_and_convert env fuel value (compile_type_schema e) .empty
          name schema.deserializers = some (some conv, c2) →
        DataModel_setattro env (fuel + 1) schema fields name value =
          some (.ok (fieldsSet fields name conv)))
  ∧ (∀ (env : Env) (fuel : Nat) (schema : SchemaCache) (fields : Fields)
        (name : String) (value : PyVal),
        strLookup schema.instance_anns name = none →
        DataModel_setattro env (fuel + 1) schema fields name value =
          some (.ok (fieldsSet fields name value))) := by
  refine ⟨?_, ?_, ?_, ?_⟩
  · intro env fuel schema fields name value e h1 h2
    simp [DataModel_setattro, h1, h2]
  · intro env fuel schema fields name value e c2 h1 h2 h3 h4
    simp [DataModel_setattro, h1, h2, h3, h4]
  · intro env fuel schema fields name value e conv c2 h1 h2 h3
    simp [DataModel_setattro, h1, h2, h3]
  · intro env fuel schema fields name value h
    simp [DataModel_setattro, h]

theorem claim_C9_witness :
    (DataModel_setattro trivEnv 3 attrSchema [("a", .int 1)] "cv" (.int 5) =
      some (.error (.attrError "Cannot set ClassVar attribute")))
  ∧ (DataModel_setattro trivEnv 3 attrSchema [("a", .int 1)] "a" (.str "x") =
      some (.error (.typeError [("a", .s "Expected type int, got str")])))
  ∧ (DataModel_setattro trivEnv 3 attrSchema [("a", .int 1)] "b" (.str "z") =
      some (.ok [("a", .int 1), ("b", .str "z")])) := by
  refine ⟨?_, ?_, ?_⟩
  · exact claim_C9_setattr_validates.1 trivEnv 2 attrSchema [("a", .int 1)]
      "cv" (.int 5) (.generic .classVarO (some [.cls .intT])) rfl rfl
  · exact claim_C9_setattr_validates.2.1 trivEnv 2 attrSchema [("a", .int 1)]
      "a" (.str "x") (.cls .intT)
      (ErrorCollector.empty.add_error "a" "Expected type int, got str")
      rfl rfl rfl rfl
  · exact claim_C9_setattr_validates.2.2.2 trivEnv 2 attrSchema
      [("a", .int 1)] "b" (.str "z") rfl

/-- C7: the plain-value path equals the reference definition worded by the
specification: identity for a value already an instance of the declared
type; else the registered (declared-type, runtime-type) deserializer whose
result counts only if it is an instance, a non-conforming or raising
deserializer falling through silently; else the dedicated kind coercion
for int/str/float/bool; else the declared type's single-argument
constructor under the accept-only-if-instance rule with the error
"Expected type X, got Y" on failure. -/
theorem claim_C7_plain_path_refines (env : Env) (fuel : Nat) (value : PyVal)
    (ts : TypeSchema) (c : ErrorCollector) (path : String)
    (d : Option Deserializers) :
    validate_plain env fuel value ts c path d =
      plain_path_spec env fuel value ts c path d := by
  cases fuel with
  | zero => rfl
  | succ n =>
    cases hinst : isinstE value ts.expected with
    | true => simp [validate_plain, plain_path_spec, hinst]
    | false =>
      cases d with
      | none => simp [validate_plain, plain_path_spec, hinst]
      | some dd =>
        cases hg : get_deserializer dd ts.expected (typeOf value) with
        | none => simp [validate_plain, plain_path_spec, hinst, hg]
        | some fid =>
          cases hc : env.vcall fid [value] with
          | ok r =>
            cases hr : isinstE r ts.expected with
            | true => simp [validate_plain, plain_path_spec, hinst, hg, hc, hr]
            | false => simp [validate_plain, plain_path_spec, hinst, hg, hc, hr]
          | error m => simp [validate_plain, plain_path_spec, hinst, hg, hc]

/-- C1: union validation is a two-pass, declaration-order, first-success
policy: the first pass returns the value unchanged (and the collector
untouched, so no coercion happens) as soon as any alternative's declared
type -- or normalized container origin for container alternatives --
already holds the value as an instance; only with no first-pass match does
the second pass re-try the alternatives in declaration order with full
conversion into a scratch collector whose contents are discarded, the
first success winning and total failure recording one union error; in
particular `5` against `Union[str, int]` exact-matches `int` and is
returned unchanged, `str(5)` never being attempted. -/
theorem claim_C1_union_two_pass :
    (∀ (env : Env) (fuel : Nat) (value : PyVal) (ts : TypeSchema)
        (c : ErrorCollector) (path : String) (d : Option Deserializers),
        ts.args.any (unionFirstMatch value) = true →
        validate_union env (fuel + 1) value ts c path d =
          some (some value, c))
  ∧ (∀ (env : Env) (fuel : Nat) (value conv : PyVal) (cand : TypeSchema)
        (rest : List TypeSchema) (temp c2 : ErrorCollector) (path : String)
        (d : Option Deserializers),
        validate_and_convert env fuel value cand temp path d =
          some (some conv, c2) →
        validate_union_second env (fuel + 1) (cand :: rest) value temp path
          d = some (some conv))
  ∧ (∀ (env : Env) (fuel : Nat) (value : PyVal) (cand : TypeSchema)
        (rest : List TypeSchema) (temp temp2 : ErrorCollector)
        (path : String) (d : Option Deserializers),
        validate_and_convert env fuel value cand temp path d =
          some (none, temp2) →
        validate_union_second env (fuel + 1) (cand :: rest) value temp path
          d = validate_union_second env fuel rest value temp2 path d)
  ∧ (∀ (env : Env) (fuel : Nat) (value conv : PyVal) (ts : TypeSchema)
        (c : ErrorCollector) (path : String) (d : Option Deserializers),
        ts.args.any (unionFirstMatch value) = false →
        validate_union_second env fuel ts.args value .empty path d =
          some (some conv) →
        validate_union env (fuel + 1) value ts c path d =
          some (some conv, c))
  ∧ (∀ (env : Env) (fuel : Nat) (value : PyVal) (ts : TypeSchema)
        (c : ErrorCollector) (path : String) (d : Option Deserializers),
        ts.args.any (unionFirstMatch value) = false →
        validate_union_second env fuel ts.args value .empty path d =
          some none →
        validate_union env (fuel + 1) value ts c path d =
          some (none, c.add_error path
            ("Value did not match any candidate in Union: got " ++
              typeNameV env value)))
  ∧ (∀ (env : Env) (fuel : Nat) (c : ErrorCollector) (path : String)
        (d : Option Deserializers),
        validate_and_convert env (fuel + 2) (.int 5) unionStrIntSchema c
          path d = some (some (.int 5), c)) := by
  refine ⟨?_, ?_, ?_, ?_, ?_, ?_⟩
  · intro env fuel value ts c path d h
    simp only [validate_union, unionFirstMatch] at h ⊢
    rw [if_pos]
    simpa [unionFirstMatch] using h
  · intro env fuel value conv cand rest temp c2 path d h
    simp [validate_union_second, h]
  · intro env fuel value cand rest temp temp2 path d h
    simp [validate_union_second, h]
  · intro env fuel value conv ts c path d h1 h2
    simp only [validate_union]
    rw [if_neg]
    · rw [h2]
    · simpa [unionFirstMatch] using h1
  · intro env fuel value ts c path d h1 h2
    simp only [validate_union]
    rw [if_neg]
    · rw [h2]
    · simpa [unionFirstMatch] using h1
  · intro env fuel c path d
    rfl

theorem tsWFList_mem {l : List TypeSchema} (h : tsWFList l = true) :
    ∀ t ∈ l, tsWF t = true := by
  induction l with
  | nil => simp
  | cons t rest ih =>
    simp only [tsWFList, Bool.and_eq_true] at h
    intro u hu
    rcases List.mem_cons.mp hu with h1 | h1
    · exact h1 ▸ h.1
    · exact ih h.2 u h1

theorem tsWF_args {ts : TypeSchema} (h : tsWF ts = true) :
    tsWFList ts.args = true := by
  obtain ⟨e, o, args, dm, opt, ck, im⟩ := ts
  simp only [tsWF, Bool.and_eq_true] at h
  exact h.2

theorem tsWF_list_args_ne_nil {ts : TypeSchema} (h : tsWF ts = true)
    (hck : ts.container_kind = .LIST) : ts.args ≠ [] := by
  obtain ⟨e, o, args, dm, opt, ck, im⟩ := ts
  simp only [TypeSchema.container_kind] at hck
  subst hck
  simp only [tsWF, Bool.and_eq_true] at h
  simpa [TypeSchema.args, List.isEmpty_iff] using h.1

theorem tsWF_set_args_ne_nil {ts : TypeSchema} (h : tsWF ts = true)
    (hck : ts.container_kind = .SET) : ts.args ≠ [] := by
  obtain ⟨e, o, args, dm, opt, ck, im⟩ := ts
  simp only [TypeSchema.container_kind] at hck
  subst hck
  simp only [tsWF, Bool.and_eq_true] at h
  simpa [TypeSchema.args, List.isEmpty_iff] using h.1

theorem tsWF_dict_args_two {ts : TypeSchema} (h : tsWF ts = true)
    (hck : ts.container_kind = .DICT) : 2 ≤ ts.args.length := by
  obtain ⟨e, o, args, dm, opt, ck, im⟩ := ts
  simp only [TypeSchema.container_kind] at hck
  subst hck
  simp only [tsWF, Bool.and_eq_true] at h
  simpa [TypeSchema.args] using h.1

theorem collOk_deepen {path x : String} {c c2 : ErrorCollector}
    (h : CollOk (path ++ x) c c2) : CollOk path c c2 := by
  refine ⟨h.1, fun k hk => ?_⟩
  rcases h.2 k hk with h1 | h1
  · exact Or.inl h1
  · exact Or.inr (extendsP_trans_append path x k h1)

theorem grow_refl {α : Type} (path : String) (c : ErrorCollector) (r : α) :
    Grow path c (some r, c) :=
  ⟨collOk_refl path c, by simp⟩

theorem grow_fail_addError {α : Type} (path m : String) (c : ErrorCollector) :
    Grow (α := α) path c (none, c.add_error path m) := by
  refine ⟨collOk_addError path path m c (extendsP_self path), fun _ => ?_⟩
  exact lt_of_lt_of_le (Nat.lt_succ_self _) (add_error_w c path m)

theorem grow_fail_addError_deep {α : Type} (path x m : String)
    (c : ErrorCollector) :
    Grow (α := α) path c (none, c.add_error (path ++ x) m) := by
  refine ⟨collOk_addError path (path ++ x) m c (extendsP_append path x),
    fun _ => ?_⟩
  exact lt_of_lt_of_le (Nat.lt_succ_self _) (add_error_w c (path ++ x) m)

theorem grow_deepen {α : Type} {path x : String} {c : ErrorCollector}
    {out : Option α × ErrorCollector} (h : Grow (path ++ x) c out) :
    Grow path c out :=
  ⟨collOk_deepen h.1, h.2⟩

theorem validate_int_grow (env : Env) (value : PyVal) (c : ErrorCollector)
    (path : String) : Grow path c (validate_int env value c path) := by
  unfold validate_int
  split
  · exact grow_refl path c value
  · split
    · split
      · exact grow_refl path c _
      · exact grow_fail_addError path _ c
    · exact grow_fail_addError path _ c

theorem validate_str_grow (env : Env) (value : PyVal) (c : ErrorCollector)
    (path : String) : Grow path c (validate_str env value c path) := by
  unfold validate_str
  split
  · exact grow_refl path c value
  · split
    · split
      · exact grow_refl path c _
      · exact grow_fail_addError path _ c
    · exact grow_fail_addError path _ c

theorem validate_float_grow (env : Env) (value : PyVal) (c : ErrorCollector)
    (path : String) : Grow path c (validate_float env value c path) := by
  unfold validate_float
  split
  · exact grow_refl path c value
  · split
    · split
      · exact grow_refl path c _
      · exact grow_fail_addError path _ c
    · exact grow_fail_addError path _ c

theorem validate_bool_grow (env : Env) (value : PyVal) (c : ErrorCollector)
    (path : String) : Grow path c (validate_bool env value c path) := by
  unfold validate_bool
  split
  · exact grow_refl path c value
  · split
    · split
      · exact grow_refl path c _
      · exact grow_fail_addError path _ c
    · exact grow_fail_addError path _ c

theorem ctor_branch_grow (env : Env) (fuel : Nat) (value : PyVal)
    (ts : TypeSchema) (c : ErrorCollector) (path : String)
    (out : Option PyVal × ErrorCollector)
    (h : (match call_expr_pos env fuel ts.expected value with
      | none => none
      | some (.ok conv) =>
        if isinstE conv ts.expected then some (some conv, c)
        else
          some (none, c.add_error path
            ("Expected type " ++ typeNameE env ts.expected ++ ", got " ++
              typeNameV env value))
      | some (.error _) =>
        some (none, c.add_error path
          ("Expected type " ++ typeNameE env ts.expected ++ ", got " ++
            typeNameV env value))) = some out) : Grow path c out := by
  cases hc : call_expr_pos env fuel ts.expected value with
  | none => rw [hc] at h; exact absurd h (by simp)
  | some r =>
    rw [hc] at h
    cases r with
    | ok conv =>
      dsimp only at h
      by_cases hi : isinstE conv ts.expected = true
      · rw [if_pos hi] at h
        cases h
        exact grow_refl path c conv
      · rw [if_neg hi] at h
        cases h
        exact grow_fail_addError path _ c
    | error e =>
      dsimp only at h
      cases h
      exact grow_fail_addError path _ c

theorem validate_plain_grow (env : Env) (fuel : Nat) (value : PyVal)
    (ts : TypeSchema) (c : ErrorCollector) (path : String)
    (d : Option Deserializers) (out : Option PyVal × ErrorCollector)
    (h : validate_plain env fuel value ts c path d = some out) :
    Grow path c out := by
  cases fuel with
  | zero => simp [validate_plain] at h
  | succ n =>
    simp only [validate_plain] at h
    have hfb : ∀ hfb2 : (if teBeq ts.expected (.cls .intT) then
          some (validate_int env value c path)
        else if teBeq ts.expected (.cls .strT) then
          some (validate_str env value c path)
        else if teBeq ts.expected (.cls .floatT) then
          some (validate_float env value c path)
        else if teBeq ts.expected (.cls .boolT) then
          some (validate_bool env value c path)
        else
          match call_expr_pos env n ts.expected value with
          | none => none
          | some (.ok conv) =>
            if isinstE conv ts.expected then some (some conv, c)
            else
              some (none, c.add_error path
                ("Expected type " ++ typeNameE env ts.expected ++ ", got " ++
                  typeNameV env value))
          | some (.error _) =>
            some (none, c.add_error path
              ("Expected type " ++ typeNameE env ts.expected ++ ", got " ++
                typeNameV env value))) = some out, Grow path c out := by
      intro h2
      split at h2
      · cases h2; exact validate_int_grow env value c path
      · split at h2
        · cases h2; exact validate_str_grow env value c path
        · split at h2
          · cases h2; exact validate_float_grow env value c path
          · split at h2
            · cases h2; exact validate_bool_grow env value c path
            · exact ctor_branch_grow env n value ts c path out h2
    split at h
    · cases h; exact grow_refl path c value
    · split at h
      · split at h
        · split at h
          · split at h
            · cases h; exact grow_refl path c _
            · exact hfb h
          · exact hfb h
        · exact hfb h
      · exact hfb h

theorem convert_using_constructor_grow (env : Env) (fuel : Nat)
    (value : PyVal) (ts : TypeSchema) (c : ErrorCollector) (path : String)
    (d : Option Deserializers) (out : Option PyVal × ErrorCollector)
    (h : convert_using_constructor env fuel value ts c path d = some out) :
    Grow path c out := by
  cases fuel with
  | zero => simp [convert_using_constructor] at h
  | succ n =>
    simp only [convert_using_constructor] at h
    exact ctor_branch_grow env n value ts c path out h

theorem validate_union_grow (env : Env) (fuel : Nat) (value : PyVal)
    (ts : TypeSchema) (c : ErrorCollector) (path : String)
    (d : Option Deserializers) (out : Option PyVal × ErrorCollector)
    (h : validate_union env fuel value ts c path d = some out) :
    Grow path c out := by
  cases fuel with
  | zero => simp [validate_union] at h
  | succ n =>
    simp only [validate_union] at h
    split at h
    · cases h; exact grow_refl path c value
    · cases hs : validate_union_second env n ts.args value .empty path d with
      | none => rw [hs] at h; exact absurd h (by simp)
      | some r =>
        rw [hs] at h
        cases r with
        | none =>
          dsimp only at h
          cases h
          exact grow_fail_addError path _ c
        | some conv =>
          dsimp only at h
          cases h
          exact grow_refl path c conv

theorem excRecords_msg (m : String) : excRecords (.typeErrorMsg m) :=
  True.intro

theorem excRecords_attr (m : String) : excRecords (.attrError m) :=
  True.intro

theorem excRecords_raw (m : String) : excRecords (.other (.raw m)) :=
  True.intro

theorem excRecords_other {t : ExcText} (h : t ≠ ExcText.obj []) :
    excRecords (.other t) := by
  cases t with
  | obj members =>
    cases members with
    | nil => exact absurd rfl h
    | cons a l =>
      show a :: l ≠ []
      exact List.cons_ne_nil a l
  | raw m => exact excRecords_raw m

theorem run_validator_chain_no_empty {env : Env} (hne : NoEmptyObjRaise env)
    (cid : Nat) : ∀ (ids : List Nat) (v : PyVal) (t : ExcText),
    run_validator_chain env cid ids v = .error t → t ≠ ExcText.obj [] := by
  intro ids
  induction ids with
  | nil => intro v t h; simp [run_validator_chain] at h
  | cons id rest ih =>
    intro v t h
    simp only [run_validator_chain] at h
    cases hc : env.vcall id [.typeRef (.model cid), v] with
    | error m =>
      rw [hc] at h
      dsimp only at h
      cases h
      intro ht
      exact hne id _ (ht ▸ hc)
    | ok nxt =>
      rw [hc] at h
      dsimp only at h
      exact ih nxt t h

theorem run_model_vals_no_empty {env : Env} (hne : NoEmptyObjRaise env)
    (cid : Nat) : ∀ (ids : List Nat) (kw : Option Kwds) (t : ExcText),
    run_model_vals env cid ids kw = .error t → t ≠ ExcText.obj [] := by
  intro ids
  induction ids with
  | nil => intro kw t h; simp [run_model_vals] at h
  | cons id rest ih =>
    intro kw t h
    cases kw with
    | none =>
      simp only [run_model_vals] at h
      cases hc : env.vcall id [PyVal.typeRef (.model cid)] with
      | error m =>
        rw [hc] at h
        dsimp only at h
        cases h
        intro ht
        exact hne id _ (ht ▸ hc)
      | ok r =>
        rw [hc] at h
        cases r <;> dsimp only at h
        case dict res =>
          cases h
          intro hx
          exact ExcText.noConfusion hx
        all_goals exact ih none t h
    | some es =>
      simp only [run_model_vals] at h
      cases hc : env.vcall id [.typeRef (.model cid), .dict es] with
      | error m =>
        rw [hc] at h
        dsimp only at h
        cases h
        intro ht
        exact hne id _ (ht ▸ hc)
      | ok r =>
        rw [hc] at h
        cases r <;> dsimp only at h
        all_goals exact ih _ t h

theorem run_model_before_no_empty {env : Env} (hne : NoEmptyObjRaise env)
    (schema : SchemaCache) (cid : Nat) (kw : Option Kwds) (t : ExcText)
    (h : run_model_before_validators env schema cid kw = .error t) :
    t ≠ ExcText.obj [] := by
  simp only [run_model_before_validators] at h
  split at h
  · simp at h
  · split at h
    · simp at h
    · exact run_model_vals_no_empty hne cid _ kw t h

theorem run_field_before_list_no_empty {env : Env} (hne : NoEmptyObjRaise env)
    (cid : Nat) : ∀ (entries : List (String × List Nat)) (kw : Kwds)
    (t : ExcText),
    run_field_before_list env cid entries kw = .error t →
    t ≠ ExcText.obj [] := by
  intro entries
  induction entries with
  | nil => intro kw t h; simp [run_field_before_list] at h
  | cons kv rest ih =>
    obtain ⟨key, vlist⟩ := kv
    intro kw t h
    simp only [run_field_before_list] at h
    cases hl : kwLookup kw key with
    | none =>
      rw [hl] at h
      dsimp only at h
      exact ih kw t h
    | some current =>
      rw [hl] at h
      dsimp only at h
      cases hvc : run_validator_chain env cid vlist current with
      | error m =>
        rw [hvc] at h
        dsimp only at h
        cases h
        exact run_validator_chain_no_empty hne cid vlist current _ hvc
      | ok final =>
        rw [hvc] at h
        dsimp only at h
        exact ih _ t h

theorem run_field_before_no_empty {env : Env} (hne : NoEmptyObjRaise env)
    (schema : SchemaCache) (cid : Nat) (kw : Option Kwds) (t : ExcText)
    (h : run_field_before_validators env schema cid kw = .error t) :
    t ≠ ExcText.obj [] := by
  simp only [run_field_before_validators] at h
  split at h
  · simp at h
  · cases kw with
    | none => simp at h
    | some k =>
      dsimp only at h
      cases hl : run_field_before_list env cid schema.validators.field_before
          k with
      | error m =>
        rw [hl] at h
        dsimp only [Except.map] at h
        cases h
        exact run_field_before_list_no_empty hne cid _ k _ hl
      | ok k2 =>
        rw [hl] at h
        simp [Except.map] at h

theorem run_model_after_list_no_empty {env : Env} (hne : NoEmptyObjRaise env)
    (cid : Nat) (flds : Fields) : ∀ (ids : List Nat) (t : ExcText),
    run_model_after_list env cid flds ids = .error t →
    t ≠ ExcText.obj [] := by
  intro ids
  induction ids with
  | nil => intro t h; simp [run_model_after_list] at h
  | cons id rest ih =>
    intro t h
    simp only [run_model_after_list] at h
    cases hc : env.vcall id (if env.arity id = 1 then [PyVal.inst cid flds]
        else [.typeRef (.model cid), .inst cid flds]) with
    | error m =>
      rw [hc] at h
      dsimp only at h
      cases h
      intro ht
      exact hne id _ (ht ▸ hc)
    | ok r =>
      rw [hc] at h
      dsimp only at h
      exact ih t h

theorem run_model_after_no_empty {env : Env} (hne : NoEmptyObjRaise env)
    (schema : SchemaCache) (cid : Nat) (flds : Fields) (t : ExcText)
    (h : run_model_after_validators env schema cid flds = .error t) :
    t ≠ ExcText.obj [] := by
  simp only [run_model_after_validators] at h
  split at h
  · simp at h
  · exact run_model_after_list_no_empty hne cid flds _ t h

theorem init_raises_recordable : ∀ fuel : Nat,
    (∀ (env : Env), NoEmptyObjRaise env →
        ∀ (cid : Nat) (kw : Option Kwds) (e : Exc),
        DataModel_init env fuel cid kw = some (.error e) → excRecords e)
  ∧ (∀ (env : Env), NoEmptyObjRaise env →
        ∀ (schema : SchemaCache) (cid : Nat) (flds : Fields) (e : Exc),
        run_field_after_validators env fuel schema cid flds =
          some (.error e) → excRecords e)
  ∧ (∀ (env : Env), NoEmptyObjRaise env →
        ∀ (schema : SchemaCache) (cid : Nat)
        (entries : List (String × List Nat)) (flds : Fields) (e : Exc),
        run_field_after_list env fuel schema cid entries flds =
          some (.error e) → excRecords e)
  ∧ (∀ (env : Env), NoEmptyObjRaise env →
        ∀ (schema : SchemaCache) (flds : Fields) (name : String)
        (value : PyVal) (e : Exc),
        DataModel_setattro env fuel schema flds name value =
          some (.error e) → excRecords e) := by
  intro fuel
  induction fuel with
  | zero =>
    refine ⟨?_, ?_, ?_, ?_⟩ <;> intro env hne
    · intro cid kw e h
      simp [DataModel_init] at h
    · intro schema cid flds e h
      simp [run_field_after_validators] at h
    · intro schema cid entries flds e h
      simp [run_field_after_list] at h
    · intro schema flds name value e h
      simp [DataModel_setattro] at h
  | succ n ih =>
    obtain ⟨ihInit, ihFav, ihFal, ihSat⟩ := ih
    refine ⟨?_, ?_, ?_, ?_⟩
    · intro env hne cid kw e h
      simp only [DataModel_init] at h
      cases hm : env.models cid with
      | none =>
        rw [hm] at h
        dsimp only at h
        cases h
        exact excRecords_msg _
      | some schema =>
        rw [hm] at h
        dsimp only at h
        cases hmb : run_model_before_validators env schema cid kw with
        | error m =>
          rw [hmb] at h
          dsimp only at h
          cases h
          exact excRecords_other
            (run_model_before_no_empty hne schema cid kw m hmb)
        | ok kw1 =>
          rw [hmb] at h
          dsimp only at h
          cases hfb : run_field_before_validators env schema cid kw1 with
          | error m =>
            rw [hfb] at h
            dsimp only at h
            cases h
            exact excRecords_other
              (run_field_before_no_empty hne schema cid kw1 m hfb)
          | ok kw2 =>
            rw [hfb] at h
            dsimp only at h
            cases hif : init_fields env n schema.fields kw2
                schema.deserializers .empty [] with
            | none => rw [hif] at h; simp at h
            | some st =>
              obtain ⟨c0, f0⟩ := st
              rw [hif] at h
              dsimp only at h
              by_cases hhe : c0.has_errors = true
              · rw [if_pos hhe] at h
                cases h
                exact has_errors_getD_ne_nil c0 hhe
              · rw [if_neg hhe] at h
                cases hfa : run_field_after_validators env n schema cid f0 with
                | none => rw [hfa] at h; simp at h
                | some r =>
                  rw [hfa] at h
                  cases r with
                  | error e2 =>
                    dsimp only at h
                    cases h
                    exact ihFav env hne schema cid f0 _ hfa
                  | ok f2 =>
                    dsimp only at h
                    cases hma : run_model_after_validators env schema cid
                        f2 with
                    | error m =>
                      rw [hma] at h
                      dsimp only at h
                      cases h
                      exact excRecords_other
                        (run_model_after_no_empty hne schema cid f2 m hma)
                    | ok u => rw [hma] at h; simp at h
    · intro env hne schema cid flds e h
      simp only [run_field_after_validators] at h
      split at h
      · simp at h
      · exact ihFal env hne schema cid schema.validators.field_after flds e h
    · intro env hne schema cid entries flds e h
      cases entries with
      | nil => simp [run_field_after_list] at h
      | cons kv rest =>
        obtain ⟨key, vlist⟩ := kv
        simp only [run_field_after_list] at h
        cases hl : strLookup flds key with
        | none =>
          rw [hl] at h
          dsimp only at h
          exact ihFal env hne schema cid rest flds e h
        | some current =>
          rw [hl] at h
          dsimp only at h
          cases hvc : run_validator_chain env cid vlist current with
          | error m =>
            rw [hvc] at h
            dsimp only at h
            cases h
            exact excRecords_other
              (run_validator_chain_no_empty hne cid vlist current m hvc)
          | ok final =>
            rw [hvc] at h
            dsimp only at h
            cases hsa : DataModel_setattro env n schema flds key final with
            | none => rw [hsa] at h; simp at h
            | some r =>
              rw [hsa] at h
              cases r with
              | error e2 =>
                dsimp only at h
                cases h
                exact ihSat env hne schema flds key final _ hsa
              | ok f2 =>
                dsimp only at h
                exact ihFal env hne schema cid rest f2 e h
    · intro env hne schema flds name value e h
      simp only [DataModel_setattro] at h
      cases ha : strLookup schema.instance_anns name with
      | none => rw [ha] at h; simp at h
      | some ann =>
        rw [ha] at h
        dsimp only at h
        by_cases hcv : is_class_var ann = true
        · rw [if_pos hcv] at h
          cases h
          exact excRecords_attr _
        · rw [if_neg hcv] at h
          cases hv : validate_and_convert env n value (compile_type_schema ann)
              .empty name schema.deserializers with
          | none => rw [hv] at h; simp at h
          | some out =>
            obtain ⟨r, c2⟩ := out
            rw [hv] at h
            cases r with
            | some conv => simp at h
            | none =>
              dsimp only at h
              by_cases hhe : c2.has_errors = true
              · rw [if_pos hhe] at h
                cases h
                exact has_errors_getD_ne_nil c2 hhe
              · rw [if_neg hhe] at h
                cases h
                exact excRecords_msg _

theorem validate_data_model_grow (env : Env) (hne : NoEmptyObjRaise env)
    (fuel : Nat) (value : PyVal) (ts : TypeSchema) (c : ErrorCollector)
    (path : String) (d : Option Deserializers)
    (out : Option PyVal × ErrorCollector)
    (h : validate_data_model env fuel value ts c path d = some out) :
    Grow path c out := by
  cases fuel with
  | zero => simp [validate_data_model] at h
  | succ n =>
    simp only [validate_data_model] at h
    have hsub : ∀ (e : Exc), excRecords e →
        Grow (α := PyVal) path c (none, c.add_suberror path e) := by
      intro e he
      refine ⟨collOk_addSuberror path path e c (extendsP_self path),
        fun _ => ?_⟩
      exact lt_of_lt_of_le (Nat.lt_succ_self _) (add_suberror_w c path e he)
    cases hexp : ts.expected with
    | generic o args =>
      rw [hexp] at h
      cases h
      exact hsub _ (excRecords_raw _)
    | cls t0 =>
      rw [hexp] at h
      cases t0 with
      | model cid =>
        dsimp only at h
        cases value with
        | dict entries =>
          dsimp only at h
          cases hin : DataModel_init env n cid (some entries) with
          | none => rw [hin] at h; simp at h
          | some r =>
            rw [hin] at h
            cases r with
            | ok flds =>
              dsimp only at h
              cases h
              exact grow_refl path c _
            | error e =>
              dsimp only at h
              cases h
              exact hsub e ((init_raises_recordable n).1 env hne cid
                (some entries) e hin)
        | none => cases h; exact hsub _ (excRecords_raw _)
        | bool b => cases h; exact hsub _ (excRecords_raw _)
        | int n2 => cases h; exact hsub _ (excRecords_raw _)
        | float q => cases h; exact hsub _ (excRecords_raw _)
        | str s => cases h; exact hsub _ (excRecords_raw _)
        | list xs => cases h; exact hsub _ (excRecords_raw _)
        | tuple xs => cases h; exact hsub _ (excRecords_raw _)
        | set xs => cases h; exact hsub _ (excRecords_raw _)
        | inst cid2 f => cases h; exact hsub _ (excRecords_raw _)
        | obj tid => cases h; exact hsub _ (excRecords_raw _)
        | typeRef tr => cases h; exact hsub _ (excRecords_raw _)
      | intT => cases h; exact hsub _ (excRecords_raw _)
      | strT => cases h; exact hsub _ (excRecords_raw _)
      | floatT => cases h; exact hsub _ (excRecords_raw _)
      | boolT => cases h; exact hsub _ (excRecords_raw _)
      | noneT => cases h; exact hsub _ (excRecords_raw _)
      | anyT => cases h; exact hsub _ (excRecords_raw _)
      | listT => cases h; exact hsub _ (excRecords_raw _)
      | dictT => cases h; exact hsub _ (excRecords_raw _)
      | tupleT => cases h; exact hsub _ (excRecords_raw _)
      | setT => cases h; exact hsub _ (excRecords_raw _)
      | typeT => cases h; exact hsub _ (excRecords_raw _)
      | custom tid => cases h; exact hsub _ (excRecords_raw _)


theorem grow_seq {β : Type} {path : String} {c c2 : ErrorCollector}
    {out : Option β × ErrorCollector} (h1 : CollOk path c c2)
    (h2 : Grow path c2 out) : Grow path c out :=
  ⟨collOk_trans h1 h2.1, fun hr => lt_of_le_of_lt h1.1 (h2.2 hr)⟩

theorem grow_path_dot {α : Type} {p a b : String} {c : ErrorCollector}
    {out : Option α × ErrorCollector} (h : Grow (p ++ a ++ b) c out) :
    Grow p c out := by
  rw [String.append_assoc] at h
  exact grow_deepen h

theorem grow_of_collOk {α : Type} {path : String} {c c2 : ErrorCollector}
    (h : CollOk path c c2) (r : α) : Grow path c (some r, c2) :=
  ⟨h, by simp⟩

theorem grow_of_fail {α β : Type} {path : String} {c c2 : ErrorCollector}
    (h : Grow (α := α) path c (none, c2)) :
    Grow (α := β) path c (none, c2) :=
  ⟨h.1, fun _ => h.2 rfl⟩

theorem engine_growth : ∀ fuel : Nat,
    (∀ (env : Env) (value : PyVal) (ts : TypeSchema) (c : ErrorCollector)
        (path : String) (d : Option Deserializers)
        (out : Option PyVal × ErrorCollector), NoEmptyObjRaise env →
        tsWF ts = true →
        validate_and_convert env fuel value ts c path d = some out →
        Grow path c out)
  ∧ (∀ (env : Env) (value : PyVal) (ts : TypeSchema) (c : ErrorCollector)
        (path : String) (d : Option Deserializers)
        (out : Option PyVal × ErrorCollector), NoEmptyObjRaise env →
        tsWF ts = true →
        ts.container_kind = .LIST →
        validate_list env fuel value ts c path d = some out → Grow path c out)
  ∧ (∀ (env : Env) (ets : TypeSchema) (xs : List PyVal) (c : ErrorCollector)
        (path : String) (i : Nat) (d : Option Deserializers)
        (out : Option (List PyVal) × ErrorCollector), NoEmptyObjRaise env →
        tsWF ets = true →
        validate_list_items env fuel ets xs c path i d = some out →
        Grow path c out)
  ∧ (∀ (env : Env) (value : PyVal) (ts : TypeSchema) (c : ErrorCollector)
        (path : String) (d : Option Deserializers)
        (out : Option PyVal × ErrorCollector), NoEmptyObjRaise env →
        tsWF ts = true →
        ts.container_kind = .DICT →
        validate_dict env fuel value ts c path d = some out → Grow path c out)
  ∧ (∀ (env : Env) (kts vts : TypeSchema) (entries : Kwds)
        (c : ErrorCollector) (path : String) (d : Option Deserializers)
        (acc : Kwds) (out : Option Kwds × ErrorCollector),
        NoEmptyObjRaise env → tsWF kts = true → tsWF vts = true →
        validate_dict_items env fuel kts vts entries c path d acc =
          some out → Grow path c out)
  ∧ (∀ (env : Env) (value : PyVal) (ts : TypeSchema) (c : ErrorCollector)
        (path : String) (d : Option Deserializers)
        (out : Option PyVal × ErrorCollector), NoEmptyObjRaise env →
        tsWF ts = true →
        validate_tuple env fuel value ts c path d = some out → Grow path c out)
  ∧ (∀ (env : Env) (pairs : List (TypeSchema × PyVal)) (c : ErrorCollector)
        (path : String) (i : Nat) (d : Option Deserializers)
        (out : Option (List PyVal) × ErrorCollector),
        NoEmptyObjRaise env → (∀ p ∈ pairs, tsWF p.1 = true) →
        validate_tuple_items env fuel pairs c path i d = some out →
        Grow path c out)
  ∧ (∀ (env : Env) (value : PyVal) (ts : TypeSchema) (c : ErrorCollector)
        (path : String) (d : Option Deserializers)
        (out : Option PyVal × ErrorCollector), NoEmptyObjRaise env →
        tsWF ts = true →
        ts.container_kind = .SET →
        validate_set env fuel value ts c path d = some out → Grow path c out)
  ∧ (∀ (env : Env) (ets : TypeSchema) (xs : List PyVal) (c : ErrorCollector)
        (path : String) (i : Nat) (d : Option Deserializers) (acc : List PyVal)
        (out : Option (List PyVal) × ErrorCollector), NoEmptyObjRaise env →
        tsWF ets = true →
        validate_set_items env fuel ets xs c path i d acc = some out →
        Grow path c out) := by
  intro fuel
  induction fuel with
  | zero =>
    refine ⟨?_, ?_, ?_, ?_, ?_, ?_, ?_, ?_, ?_⟩ <;> intro env
    · intro value ts c path d out _ _ h; simp [validate_and_convert] at h
    · intro value ts c path d out _ _ _ h; simp [validate_list] at h
    · intro ets xs c path i d out _ _ h; simp [validate_list_items] at h
    · intro value ts c path d out _ _ _ h; simp [validate_dict] at h
    · intro kts vts entries c path d acc out _ _ _ h
      simp [validate_dict_items] at h
    · intro value ts c path d out _ _ h; simp [validate_tuple] at h
    · intro pairs c path i d out _ _ h; simp [validate_tuple_items] at h
    · intro value ts c path d out _ _ _ h; simp [validate_set] at h
    · intro ets xs c path i d acc out _ _ h; simp [validate_set_items] at h
  | succ n ih =>
    obtain ⟨ihV, ihL, ihLI, ihD, ihDI, ihT, ihTI, ihS, ihSI⟩ := ih
    refine ⟨?_, ?_, ?_, ?_, ?_, ?_, ?_, ?_, ?_⟩
    -- validate_and_convert dispatch
    · intro env value ts c path d out hne hwf h
      simp only [validate_and_convert] at h
      split at h
      · cases h; exact grow_refl path c _
      · split at h
        · cases h; exact grow_refl path c _
        · split at h
          · exact validate_data_model_grow env hne n value ts c path d out h
          · cases hck : ts.container_kind
            all_goals rw [hck] at h
            case LIST => exact ihL env value ts c path d out hne hwf hck h
            case DICT => exact ihD env value ts c path d out hne hwf hck h
            case TUPLE => exact ihT env value ts c path d out hne hwf h
            case SET => exact ihS env value ts c path d out hne hwf hck h
            case NONE =>
              dsimp only at h
              split at h
              · exact validate_plain_grow env n value ts c path d out h
              · split at h
                · rename_i hcontra
                  exact absurd hcontra (by simp)
                · exact convert_using_constructor_grow env n value ts c path
                    d out h
            case UNION =>
              dsimp only at h
              split at h
              · exact validate_plain_grow env n value ts c path d out h
              · split at h
                · exact validate_union_grow env n value ts c path d out h
                · rename_i hcontra
                  exact absurd rfl hcontra
    -- validate_list
    · intro env value ts c path d out hne hwf hck h
      simp only [validate_list] at h
      cases value
      case list xs =>
        dsimp only at h
        cases hargs : ts.args with
        | nil => exact absurd hargs (tsWF_list_args_ne_nil hwf hck)
        | cons ets rest =>
          rw [hargs] at h
          dsimp only at h
          have hets : tsWF ets = true :=
            tsWFList_mem (tsWF_args hwf) ets
              (by rw [hargs]; exact List.mem_cons_self ets rest)
          cases hli : validate_list_items env n ets xs c path 0 d with
          | none => rw [hli] at h; simp at h
          | some out2 =>
            obtain ⟨r2, c2⟩ := out2
            rw [hli] at h
            have hg := ihLI env ets xs c path 0 d (r2, c2) hne hets hli
            cases r2 with
            | none => dsimp only at h; cases h; exact grow_of_fail hg
            | some ys => dsimp only at h; cases h; exact grow_of_collOk hg.1 _
      all_goals (dsimp only at h; cases h; exact grow_fail_addError path _ c)
    -- validate_list_items
    · intro env ets xs c path i d out hne hwf h
      cases xs with
      | nil =>
        simp only [validate_list_items] at h
        cases h
        exact grow_refl path c _
      | cons x rest =>
        simp only [validate_list_items] at h
        cases hv : validate_and_convert env n x ets c
            (path ++ "." ++ toString i) d with
        | none => rw [hv] at h; simp at h
        | some out1 =>
          obtain ⟨r1, c2⟩ := out1
          rw [hv] at h
          have hg1 : Grow path c (r1, c2) :=
            grow_path_dot (ihV env x ets c (path ++ "." ++ toString i) d
              (r1, c2) hne hwf hv)
          cases r1 with
          | none => dsimp only at h; cases h; exact grow_of_fail hg1
          | some y =>
            dsimp only at h
            cases hrest : validate_list_items env n ets rest c2 path
                (i + 1) d with
            | none => rw [hrest] at h; simp at h
            | some out2 =>
              obtain ⟨r2, c3⟩ := out2
              rw [hrest] at h
              have hg2 := ihLI env ets rest c2 path (i + 1) d (r2, c3) hne
                hwf hrest
              cases r2 with
              | none =>
                dsimp only at h; cases h
                exact grow_seq hg1.1 hg2
              | some ys =>
                dsimp only at h; cases h
                exact grow_of_collOk (collOk_trans hg1.1 hg2.1) _
    -- validate_dict
    · intro env value ts c path d out hne hwf hck h
      simp only [validate_dict] at h
      cases value
      case dict entries =>
        dsimp only at h
        have hlen := tsWF_dict_args_two hwf hck
        cases hargs : ts.args with
        | nil => rw [hargs] at hlen; simp at hlen
        | cons kts rest1 =>
          cases rest1 with
          | nil => rw [hargs] at hlen; simp at hlen
          | cons vts rest2 =>
            rw [hargs] at h
            dsimp only at h
            have hkts : tsWF kts = true :=
              tsWFList_mem (tsWF_args hwf) kts (by rw [hargs]; simp)
            have hvts : tsWF vts = true :=
              tsWFList_mem (tsWF_args hwf) vts (by rw [hargs]; simp)
            cases hdi : validate_dict_items env n kts vts entries c path d
                [] with
            | none => rw [hdi] at h; simp at h
            | some out2 =>
              obtain ⟨r2, c2⟩ := out2
              rw [hdi] at h
              have hg := ihDI env kts vts entries c path d [] (r2, c2) hne
                hkts hvts hdi
              cases r2 with
              | none => dsimp only at h; cases h; exact grow_of_fail hg
              | some es => dsimp only at h; cases h; exact grow_of_collOk hg.1 _
      all_goals (dsimp only at h; cases h; exact grow_fail_addError path _ c)
    -- validate_dict_items
    · intro env kts vts entries c path d acc out hne hk hv h
      cases entries with
      | nil =>
        simp only [validate_dict_items] at h
        cases h
        exact grow_refl path c _
      | cons kv rest =>
        obtain ⟨k, v⟩ := kv
        simp only [validate_dict_items] at h
        cases hvk : validate_and_convert env n k kts c
            (path ++ "." ++ dictKeyStr env k) d with
        | none => rw [hvk] at h; simp at h
        | some out1 =>
          obtain ⟨r1, c2⟩ := out1
          rw [hvk] at h
          have hg1 : Grow path c (r1, c2) :=
            grow_path_dot (ihV env k kts c _ d (r1, c2) hne hk hvk)
          cases r1 with
          | none => dsimp only at h; cases h; exact grow_of_fail hg1
          | some ck2 =>
            dsimp only at h
            cases hvv : validate_and_convert env n v vts c2
                (path ++ "." ++ dictKeyStr env k) d with
            | none => rw [hvv] at h; simp at h
            | some out2 =>
              obtain ⟨r2, c3⟩ := out2
              rw [hvv] at h
              have hg2 : Grow path c2 (r2, c3) :=
                grow_path_dot (ihV env v vts c2 _ d (r2, c3) hne hv hvv)
              cases r2 with
              | none =>
                dsimp only at h; cases h
                exact grow_of_fail (grow_seq hg1.1 hg2)
              | some cv2 =>
                dsimp only at h
                have hg3 := ihDI env kts vts rest c3 path d
                  (dictSetKV acc ck2 cv2) out hne hk hv h
                exact grow_seq (collOk_trans hg1.1 hg2.1) hg3
    -- validate_tuple
    · intro env value ts c path d out hne hwf h
      simp only [validate_tuple] at h
      cases value
      case tuple xs =>
        dsimp only at h
        split at h
        · cases h; exact grow_fail_addError path _ c
        · cases hti : validate_tuple_items env n (ts.args.zip xs) c path 0
              d with
          | none => rw [hti] at h; simp at h
          | some out2 =>
            obtain ⟨r2, c2⟩ := out2
            rw [hti] at h
            have hmem : ∀ p ∈ ts.args.zip xs, tsWF p.1 = true := by
              intro p hp
              exact tsWFList_mem (tsWF_args hwf) p.1 (List.of_mem_zip hp).1
            have hg := ihTI env (ts.args.zip xs) c path 0 d (r2, c2) hne hmem
              hti
            cases r2 with
            | none => dsimp only at h; cases h; exact grow_of_fail hg
            | some ys => dsimp only at h; cases h; exact grow_of_collOk hg.1 _
      all_goals (dsimp only at h; cases h; exact grow_fail_addError path _ c)
    -- validate_tuple_items
    · intro env pairs c path i d out hne hwf h
      cases pairs with
      | nil =>
        simp only [validate_tuple_items] at h
        cases h
        exact grow_refl path c _
      | cons p rest =>
        obtain ⟨its, x⟩ := p
        simp only [validate_tuple_items] at h
        cases hv : validate_and_convert env n x its c
            (path ++ "." ++ toString i) d with
        | none => rw [hv] at h; simp at h
        | some out1 =>
          obtain ⟨r1, c2⟩ := out1
          rw [hv] at h
          have hits : tsWF its = true := hwf (its, x) (List.mem_cons_self _ _)
          have hg1 : Grow path c (r1, c2) :=
            grow_path_dot (ihV env x its c _ d (r1, c2) hne hits hv)
          cases r1 with
          | none => dsimp only at h; cases h; exact grow_of_fail hg1
          | some y =>
            dsimp only at h
            cases hrest : validate_tuple_items env n rest c2 path (i + 1)
                d with
            | none => rw [hrest] at h; simp at h
            | some out2 =>
              obtain ⟨r2, c3⟩ := out2
              rw [hrest] at h
              have hwfrest : ∀ p ∈ rest, tsWF p.1 = true := fun p hp =>
                hwf p (List.mem_cons_of_mem _ hp)
              have hg2 := ihTI env rest c2 path (i + 1) d (r2, c3) hne
                hwfrest hrest
              cases r2 with
              | none =>
                dsimp only at h; cases h
                exact grow_seq hg1.1 hg2
              | some ys =>
                dsimp only at h; cases h
                exact grow_of_collOk (collOk_trans hg1.1 hg2.1) _
    -- validate_set
    · intro env value ts c path d out hne hwf hck h
      simp only [validate_set] at h
      cases value
      case set xs =>
        dsimp only at h
        cases hargs : ts.args with
        | nil => exact absurd hargs (tsWF_set_args_ne_nil hwf hck)
        | cons ets rest =>
          rw [hargs] at h
          dsimp only at h
          have hets : tsWF ets = true :=
            tsWFList_mem (tsWF_args hwf) ets
              (by rw [hargs]; exact List.mem_cons_self ets rest)
          cases hsi : validate_set_items env n ets xs c path 0 d [] with
          | none => rw [hsi] at h; simp at h
          | some out2 =>
            obtain ⟨r2, c2⟩ := out2
            rw [hsi] at h
            have hg := ihSI env ets xs c path 0 d [] (r2, c2) hne hets hsi
            cases r2 with
            | none => dsimp only at h; cases h; exact grow_of_fail hg
            | some ys => dsimp only at h; cases h; exact grow_of_collOk hg.1 _
      all_goals (dsimp only at h; cases h; exact grow_fail_addError path _ c)
    -- validate_set_items
    · intro env ets xs c path i d acc out hne hwf h
      cases xs with
      | nil =>
        simp only [validate_set_items] at h
        cases h
        exact grow_refl path c _
      | cons x rest =>
        simp only [validate_set_items] at h
        cases hv : validate_and_convert env n x ets c
            (path ++ "." ++ toString i) d with
        | none => rw [hv] at h; simp at h
        | some out1 =>
          obtain ⟨r1, c2⟩ := out1
          rw [hv] at h
          have hg1 : Grow path c (r1, c2) :=
            grow_path_dot (ihV env x ets c _ d (r1, c2) hne hwf hv)
          cases r1 with
          | none => dsimp only at h; cases h; exact grow_of_fail hg1
          | some y =>
            dsimp only at h
            have hg2 := ihSI env ets rest c2 path (i + 1) d (setAddV acc y)
              out hne hwf h
            exact grow_seq hg1.1 hg2

/-- C3 (amended): for every input value, well-formed schema node,
collector, and path, and provided no user callable of the environment
raises an exception whose rendered text parses as a JSON object with no
members, whenever `validate_and_convert` returns failure it has first
recorded at least one error into the collector (the document strictly
grows), and every key the document gained is the failure's own path or a
nested sub-path of it.  Failures are reported exclusively through the
collector: the embedding's result type has no exception outcome, every
raise from constructors, deserializers, or nested model construction being
caught inside the engine (`PyErr_Clear` / `add_suberror`).  The proviso is
necessary: a nested-model validator raising an exception printing as the
empty JSON object makes `add_suberror` parse it and merge zero members, so
the call fails with nothing recorded. -/
theorem claim_C3_failure_records_error (env : Env) (fuel : Nat)
    (value : PyVal) (ts : TypeSchema) (c c2 : ErrorCollector) (path : String)
    (d : Option Deserializers) (hne : NoEmptyObjRaise env)
    (hwf : tsWF ts = true)
    (h : validate_and_convert env fuel value ts c path d = some (none, c2)) :
    c.w < c2.w ∧ ∀ k ∈ c2.keys, k ∈ c.keys ∨ ExtendsP path k := by
  have hg := (engine_growth fuel).1 env value ts c path d (none, c2) hne hwf h
  exact ⟨hg.2 rfl, hg.1.2⟩

theorem claim_C3_witness :
    ErrorCollector.empty.w <
      (ErrorCollector.mk (some [("f", .s "Expected type int, got str")])).w ∧
    ∀ k ∈ (ErrorCollector.mk
        (some [("f", .s "Expected type int, got str")])).keys,
      k ∈ ErrorCollector.empty.keys ∨ ExtendsP "f" k :=
  claim_C3_failure_records_error trivEnv 2 (.str "x") intSchema .empty
    (ErrorCollector.mk (some [("f", .s "Expected type int, got str")]))
    "f" none (fun _ _ hx => ExcText.noConfusion (Except.error.inj hx)) rfl rfl

/-- C3 (counterexample to the unconditional claim): against a DataModel
annotation whose model-before validator raises an exception printing as
the empty JSON object, `validate_and_convert` fails -- it returns no
converted value -- yet the collector records nothing: the sub-error merge
parsed zero members, `has_errors` stays false and no message is stored at
the field path. -/
theorem claim_C3_counterexample :
    tsWF (compile_type_schema (.cls (.model 0))) = true ∧
    validate_and_convert emptyRaiseEnv 6 (.dict [])
        (compile_type_schema (.cls (.model 0))) .empty "f" none =
      some (none, ErrorCollector.mk (some [])) ∧
    (ErrorCollector.mk (some [])).has_errors = false ∧
    msgsAt (ErrorCollector.mk (some [])) "f" = [] :=
  ⟨rfl, rfl, rfl, rfl⟩

theorem claim_C1_witness :
    validate_union trivEnv 3 (.int 5) unionStrIntSchema .empty "u" none =
      some (some (.int 5), .empty) :=
  claim_C1_union_two_pass.1 trivEnv 2 (.int 5) unionStrIntSchema .empty "u"
    none rfl

theorem claim_C2_witness :
    validate_list_items trivEnv 4 intSchema ([.str "x"] ++ [.str "y"])
        .empty "f" 0 none =
      some (none, ErrorCollector.empty.add_error "f.0"
        "Expected type int, got str") :=
  claim_C2_list_first_failure.2 trivEnv 4 intSchema [.str "x"] [.str "y"]
    .empty (ErrorCollector.empty.add_error "f.0" "Expected type int, got str")
    "f" 0 none rfl
